import Mathlib

/-!
Verification of the core mesh-generation and geometry-preprocessing scripts
of the cdt-platform-scripts repository, shallowly embedded in Lean 4.

Numeric code (`find_r`, `generate_grid_*`, `generate_grid_info`) is embedded
over `ℚ` (exact rational arithmetic standing in for Python floats); every
algorithmic step (Newton iteration, guards, nudges, rounding, the
buffer-count reduction loop) mirrors the Python source line by line.
Text-processing code (`split_stl_by_facet`, `parse_stl`) is embedded over
`String`/`List String`, with Python's `str.strip`, `str.startswith`,
`str.split` modelled by executable character-list functions.  Python
exceptions (`ValueError`, `IndexError`) are modelled with `Except String`.
-/

/-! # StretchSolver: `find_r` (generate_microclimate_inputs.py, lines 19-68) -/

/-- Convergence tolerance `1e-6` (default parameter `tolerance`). -/
def tolQ : ℚ := 1 / 1000000

/-- Singularity / derivative guard threshold `1e-10`. -/
def epsQ : ℚ := 1 / 10000000000

/-- The nudge value `1.0 + 1e-5` (line 66). -/
def nudgeQ : ℚ := 1 + 1 / 100000

/-- Message of the iteration-budget failure (line 68). -/
def convergeMsg : String := "Failed to converge within the maximum number of iterations."

/-- Message of the degenerate-derivative failure (line 60). -/
def derivMsg : String := "Derivative too small, iteration may not converge."

/-- The residual `f(r) = dx_min * (1 - r**n) / (1 - r) - delta` (line 42). -/
def fcode (d : ℚ) (n : ℕ) (dl r : ℚ) : ℚ := d * (1 - r ^ n) / (1 - r) - dl

/-- The derivative
`f'(r) = -dx_min*n*r**(n-1)/(1-r) + dx_min*(1-r**n)/(1-r)**2` (lines 48-50).
The exponent `n-1` is Python integer arithmetic, hence `(n : ℤ) - 1`. -/
def fpcode (d : ℚ) (n : ℕ) (r : ℚ) : ℚ :=
  -d * (n : ℚ) * r ^ ((n : ℤ) - 1) / (1 - r) + d * (1 - r ^ n) / (1 - r) ^ 2

/-- The Newton-Raphson loop of `find_r` (lines 52-68), with the iteration
budget as explicit fuel.  When `|r - 1| < 1e-10` at the top of an iteration,
the Python `f`/`f_prime` return `inf`, the update produces `nan`, and every
remaining iteration keeps `r = nan` so the loop necessarily ends in the
convergence `ValueError`; this absorbed tail is modelled by returning the
convergence error directly (the observable outcome is identical).  The nudge
at lines 64-66 guarantees that branch is never taken from a reachable state. -/
def findRLoop (d : ℚ) (n : ℕ) (dl tol : ℚ) : ℕ → ℚ → Except String ℚ
  | 0, _ => Except.error convergeMsg
  | fuel + 1, r =>
    if |r - 1| < epsQ then Except.error convergeMsg
    else if |fcode d n dl r| < tol then Except.ok r
    else if |fpcode d n r| < epsQ then Except.error derivMsg
    else
      findRLoop d n dl tol fuel
        (if |(r - fcode d n dl r / fpcode d n r) - 1| < epsQ then nudgeQ
         else r - fcode d n dl r / fpcode d n r)

/-- `find_r` with its default parameters `initial_r=1.1`, `tolerance=1e-6`,
`max_iterations=1000` (line 19). -/
def find_r (d : ℚ) (n : ℕ) (dl : ℚ) : Except String ℚ :=
  findRLoop d n dl tolQ 1000 (11 / 10)

/-! # GridBuilder (generate_microclimate_inputs.py, lines 70-113) -/

/-- One geometric run of cell widths: start at `dx` and multiply by `r` each
step (the `for` loops at lines 79-81 and 90-92). -/
def geomRun (dx r : ℚ) : ℕ → List ℚ
  | 0 => []
  | n + 1 => dx :: geomRun (dx * r) r n

/-- `generate_grid_with_two_buffers` (lines 70-94): reversed geometric
pre-buffer, uniform urban core, geometric post-buffer. -/
def generate_grid_with_two_buffers (bg : ℕ) (dxmin L : ℚ) (nUrban : ℕ) :
    Except String (List ℚ) :=
  (find_r dxmin bg L).map fun r =>
    (geomRun dxmin r bg).reverse ++ List.replicate nUrban dxmin ++ geomRun dxmin r bg

/-- `generate_grid_with_one_buffer` (lines 96-113): uniform urban core then
one geometric post-buffer. -/
def generate_grid_with_one_buffer (bg : ℕ) (dxmin L : ℚ) (nUrban : ℕ) :
    Except String (List ℚ) :=
  (find_r dxmin bg L).map fun r =>
    List.replicate nUrban dxmin ++ geomRun dxmin r bg

/-! # Domain / grid-info derivation (generate_microclimate_inputs.py, lines 115-171)

Only the pure mesh computation of `generate_grid_info` (lines 118-171) is
modelled; the JSON/file I/O around it (lines 173-222) is glue. -/

/-- Python's builtin `round` (banker's rounding: round half to even),
which lines 135-136, 141-142, 147-148 apply to the exact cell count. -/
def pyRound (q : ℚ) : ℤ :=
  if q - ⌊q⌋ < 1 / 2 then ⌊q⌋
  else if (1 : ℚ) / 2 < q - ⌊q⌋ then ⌊q⌋ + 1
  else if 2 ∣ ⌊q⌋ then ⌊q⌋ else ⌊q⌋ + 1

/-- One axis of the integral-cell-count normalization (lines 129-150):
`n = (hi - lo) / gs`; if `n` is not an integer, move the far bound by
`(round(n) - n) * gs` and round `n`, else just truncate `n` to an integer.
Returns the adjusted far bound and the integral cell count. -/
def adjustAxis (lo hi gs : ℚ) : ℚ × ℤ :=
  if ((hi - lo) / gs).den = 1 then (hi, ((hi - lo) / gs).num)
  else (hi + ((pyRound ((hi - lo) / gs) : ℚ) - (hi - lo) / gs) * gs,
        pyRound ((hi - lo) / gs))

/-- The buffer-cell-count reduction loop (lines 155-156):
`while buffer_grids > 0 and buffer_grids * grid_size > buffer_length - 5.0 * grid_size:
buffer_grids -= 1`. -/
def adjustBufferGrids (gs L : ℚ) : ℕ → ℕ
  | 0 => 0
  | b + 1 => if ((b : ℚ) + 1) * gs > L - 5 * gs then adjustBufferGrids gs L b else b + 1

/-- The user-supplied microclimate configuration consumed by
`generate_grid_info` (lines 118-126).  `bufferGrids` is a count, modelled
as `ℕ` (the `while` guard at line 155 keeps it nonnegative anyway). -/
structure Microclimate where
  xf_min : ℚ
  xf_max : ℚ
  yf_min : ℚ
  yf_max : ℚ
  zf_min : ℚ
  zf_max : ℚ
  gridSize : ℚ
  delta : ℚ
  bufferGrids : ℕ

/-- All mesh quantities computed by `generate_grid_info` before serialization:
adjusted urban far bounds and cell counts (lines 129-150), buffer length
(line 152), reduced buffer cell count (lines 155-156), extended domain bounds
(lines 158-163), total cell counts (lines 165-167) and the three per-axis
width sequences (lines 169-171). -/
structure GridInfoOut where
  xf_max : ℚ
  yf_max : ℚ
  zf_max : ℚ
  nx : ℤ
  ny : ℤ
  nz : ℤ
  buffer_length : ℚ
  buffer_grids : ℕ
  x_min : ℚ
  x_max : ℚ
  y_min : ℚ
  y_max : ℚ
  z_min : ℚ
  z_max : ℚ
  n_x_grid : ℤ
  n_y_grid : ℤ
  n_z_grid : ℤ
  x_grid : Except String (List ℚ)
  y_grid : Except String (List ℚ)
  z_grid : Except String (List ℚ)

/-- The pure mesh computation of `generate_grid_info` (lines 118-171).
Python passes the (possibly negative) int `nx` to `range`, which is empty
for negative arguments — hence `Int.toNat`. -/
def generate_grid_info (mc : Microclimate) : GridInfoOut :=
  let p1 := adjustAxis mc.xf_min mc.xf_max mc.gridSize
  let p2 := adjustAxis mc.yf_min mc.yf_max mc.gridSize
  let p3 := adjustAxis mc.zf_min mc.zf_max mc.gridSize
  let bl := mc.delta * p2.1
  let bg := adjustBufferGrids mc.gridSize bl mc.bufferGrids
  { xf_max := p1.1, yf_max := p2.1, zf_max := p3.1
    nx := p1.2, ny := p2.2, nz := p3.2
    buffer_length := bl
    buffer_grids := bg
    x_min := mc.xf_min - bl, x_max := p1.1 + bl
    y_min := mc.yf_min, y_max := p2.1 + bl
    z_min := mc.zf_min - bl, z_max := p3.1 + bl
    n_x_grid := p1.2 + 2 * (bg : ℤ), n_y_grid := p2.2 + (bg : ℤ)
    n_z_grid := p3.2 + 2 * (bg : ℤ)
    x_grid := generate_grid_with_two_buffers bg mc.gridSize bl p1.2.toNat
    y_grid := generate_grid_with_one_buffer bg mc.gridSize bl p2.2.toNat
    z_grid := generate_grid_with_two_buffers bg mc.gridSize bl p3.2.toNat }

/-! # C4 -/

/-- A concrete configuration: urban bounds x ∈ [0,8], y ∈ [0,4], z ∈ [0,6],
grid size 1, delta 1/2, no buffer cells. -/
def mcExample : Microclimate := ⟨0, 8, 0, 4, 0, 6, 1, 1 / 2, 0⟩

/-! # GeometrySplitter: `split_stl_by_facet` (split_stl_by_facet.py, lines 4-41)

Lines are modelled without their trailing newline (Python's `readlines` /
`writelines` round-trip); `str.strip`, `str.startswith` and
`line.split(" ", 1)` are modelled by executable character-list functions. -/

/-- Python's `str.strip()` on the underlying character list. -/
def stripChars (cs : List Char) : List Char :=
  (((cs.dropWhile Char.isWhitespace).reverse).dropWhile Char.isWhitespace).reverse

/-- Python's `line.strip()`. -/
def pyStrip (s : String) : String := String.mk (stripChars s.data)

/-- Python's `s.startswith(pre)`. -/
def startsW (s pre : String) : Bool := List.isPrefixOf pre.data s.data

/-- Everything after the first space — `t.split(" ", 1)[1]` — with `none`
when the string contains no space (where Python raises `IndexError`). -/
def afterFirstSpace (cs : List Char) : Option (List Char) :=
  match cs.dropWhile (fun c => !(c == ' ')) with
  | [] => none
  | _ :: t => some t

/-- The stripped line starts the facet-close keyword (`endfacet`). -/
def isEndFacetL (l : String) : Bool := startsW (pyStrip l) "endfacet"

/-- The stripped line starts the solid-close keyword. -/
def isEndSolidL (l : String) : Bool := startsW (pyStrip l) "endsolid"

/-- The stripped line starts the solid-open keyword. -/
def isSolidOpenL (l : String) : Bool := startsW (pyStrip l) "solid"

/-- The stripped line starts the facet-open keyword. -/
def isFacetOpenL (l : String) : Bool := startsW (pyStrip l) "facet normal"

/-- The stripped line is a vertex payload line. -/
def isVertexL (l : String) : Bool := startsW (pyStrip l) "vertex"

/-- The synthesized per-facet solid-open line `solid {cs}_{si}` (line 23). -/
def synthOpen (cs : String) (si : ℕ) : String :=
  "solid " ++ cs ++ "_" ++ toString si

/-- The synthesized per-facet solid-close line `endsolid {cs}_{si}` (line 31). -/
def synthClose (cs : String) (si : ℕ) : String :=
  "endsolid " ++ cs ++ "_" ++ toString si

/-- The `while i < len(lines)` loop of `split_stl_by_facet` (lines 13-38).
The running index is replaced by the list of remaining lines; since every
iteration advances `i` by at least one, `fuel = number of remaining lines`
always suffices, so the `"fuel"` branch is unreachable from
`split_stl_by_facet`.  Python's two `IndexError`s — a `solid` line with no
space (line 17) and running past the end of the file inside a facet
(lines 25-28) — are the `Except.error "IndexError"` outcomes.  The original
`endsolid` branch and the catch-all branch (lines 35-38) both just advance. -/
def splitLoopF : ℕ → String → ℕ → List String → Except String (List String)
  | _, _, _, [] => Except.ok []
  | 0, _, _, _ :: _ => Except.error "fuel"
  | fuel + 1, cs, si, l :: rest =>
    if isSolidOpenL l then
      match afterFirstSpace (pyStrip l).data with
      | none => Except.error "IndexError"
      | some nm => splitLoopF fuel (String.mk nm) 0 rest
    else if isFacetOpenL l then
      match (l :: rest).dropWhile (fun x => !(isEndFacetL x)) with
      | [] => Except.error "IndexError"
      | ef :: rest2 =>
        (splitLoopF fuel cs (si + 1) rest2).map fun out =>
          (synthOpen cs si ::
            ((l :: rest).takeWhile (fun x => !(isEndFacetL x))
              ++ [ef] ++ [synthClose cs si])) ++ out
    else if isEndSolidL l then splitLoopF fuel cs si rest
    else splitLoopF fuel cs si rest

/-- `split_stl_by_facet` on the list of (newline-stripped) input lines,
returning the output lines (lines 4-41; `current_solid = ""`,
`solid_index = 0` initially). -/
def split_stl_by_facet (ls : List String) : Except String (List String) :=
  splitLoopF ls.length "" 0 ls

/-- The loop at a canonical fuel (enough for its own input). -/
def runSplit (cs : String) (si : ℕ) (ls : List String) : Except String (List String) :=
  splitLoopF ls.length cs si ls

/-! ## Structured well-formed geometry files and their rendering -/

/-- One facet record: its facet-open line, the raw lines strictly between
the open and close markers, and its facet-close line. -/
structure STLFacet where
  openL : String
  body : List String
  closeL : String

/-- A facet together with any stray lines following it inside its solid. -/
structure STLChunk where
  facet : STLFacet
  gap : List String

/-- One solid block: open line, stray lines before the first facet, facet
chunks, close line, and stray lines following the block. -/
structure STLSolid where
  openL : String
  pre : List String
  chunks : List STLChunk
  closeL : String
  post : List String

/-- A whole geometry file: leading stray lines, then solid blocks. -/
structure STLFile where
  lead : List String
  solids : List STLSolid

def renderFacet (f : STLFacet) : List String := f.openL :: (f.body ++ [f.closeL])

def renderChunk (c : STLChunk) : List String := renderFacet c.facet ++ c.gap

def renderSolid (s : STLSolid) : List String :=
  s.openL :: (s.pre ++ s.chunks.flatMap renderChunk ++ [s.closeL] ++ s.post)

def renderFile (F : STLFile) : List String := F.lead ++ F.solids.flatMap renderSolid

/-- The solid name the splitter extracts from a solid-open line. -/
def nameOf (s : STLSolid) : String :=
  String.mk ((afterFirstSpace (pyStrip s.openL).data).getD [])

/-- The output block the splitter emits for one facet. -/
def facetBlock (cs : String) (si : ℕ) (f : STLFacet) : List String :=
  synthOpen cs si :: (renderFacet f ++ [synthClose cs si])

/-- The output blocks for a run of chunks starting at facet index `si`. -/
def blocksFrom (cs : String) (si : ℕ) (chunks : List STLChunk) : List String :=
  (List.enumFrom si chunks).flatMap fun p => facetBlock cs p.1 p.2.facet

/-- All output blocks of one solid. -/
def solidBlocks (s : STLSolid) : List String := blocksFrom (nameOf s) 0 s.chunks

/-- The full expected splitter output. -/
def expectedOut (F : STLFile) : List String := F.solids.flatMap solidBlocks

/-- A stray line: must not look like a solid-open or facet-open line (so the
splitter just skips it) nor like a vertex line (the format keeps vertex
lines inside facets). -/
def GapOk (l : String) : Prop :=
  isSolidOpenL l = false ∧ isFacetOpenL l = false ∧ isVertexL l = false

/-- A well-formed facet: the open line is a facet-open (and nothing else
that would divert the dispatch), no interior line closes the facet early or
looks like a solid-open/facet-open line, and the close line closes it. -/
def FacetOk (f : STLFacet) : Prop :=
  isFacetOpenL f.openL = true ∧
  isSolidOpenL f.openL = false ∧
  isEndFacetL f.openL = false ∧
  (∀ b ∈ f.body, isEndFacetL b = false ∧ isSolidOpenL b = false ∧
    isFacetOpenL b = false) ∧
  isEndFacetL f.closeL = true ∧
  isSolidOpenL f.closeL = false ∧
  isFacetOpenL f.closeL = false

/-- A well-formed solid: a named solid-open line, well-formed facets, and
stray/close lines that the splitter drops. -/
def SolidOk (s : STLSolid) : Prop :=
  isSolidOpenL s.openL = true ∧
  (afterFirstSpace (pyStrip s.openL).data).isSome = true ∧
  isFacetOpenL s.openL = false ∧
  isVertexL s.openL = false ∧
  (∀ g ∈ s.pre, GapOk g) ∧
  (∀ c ∈ s.chunks, FacetOk c.facet ∧ ∀ g ∈ c.gap, GapOk g) ∧
  (∀ g ∈ s.post, GapOk g) ∧
  isSolidOpenL s.closeL = false ∧
  isFacetOpenL s.closeL = false ∧
  isVertexL s.closeL = false

/-- A well-formed file. -/
def FileOk (F : STLFile) : Prop :=
  (∀ g ∈ F.lead, GapOk g) ∧ ∀ s ∈ F.solids, SolidOk s

instance (l : String) : Decidable (GapOk l) := by
  unfold GapOk
  infer_instance

instance (f : STLFacet) : Decidable (FacetOk f) := by
  unfold FacetOk
  infer_instance

instance (s : STLSolid) : Decidable (SolidOk s) := by
  unfold SolidOk
  infer_instance

instance (F : STLFile) : Decidable (FileOk F) := by
  unfold FileOk
  infer_instance

deriving instance DecidableEq for Except

/-- A small well-formed geometry file used by the splitter witnesses:
stray lines, one solid with two facets (with a stray blank between them),
and trailing junk. -/
def fileExample : STLFile :=
  ⟨["", "junk line"],
   [⟨"solid building_7",
     [""],
     [⟨⟨"facet normal 0 0 1",
        ["outer loop", " vertex 0 0 0", " vertex 1 0 0", " vertex 0 1 0", "endloop"],
        "endfacet"⟩, [""]⟩,
      ⟨⟨"  facet normal 0 0 -1",
        ["outer loop", " vertex 0 0 5", " vertex 1 0 5", " vertex 0 1 5", "endloop"],
        "  endfacet"⟩, []⟩],
     "endsolid building_7",
     ["trailing junk"]⟩]⟩

/-! # GeometryParser: `parse_stl` (parse_stl.py, lines 26-84)

Only the solid-name classification (lines 52-61) and the vertex
field-count check (lines 64-65) are modelled; the float parsing and
bounding-box accumulation of lines 66-74 do not interact with the solid
counters that C9 is about. -/

/-- Helper for `pySplit`: scan the characters, accumulating the current
(reversed) token; whitespace flushes a nonempty token. -/
def wsSplitAux : List Char → List Char → List String
  | [], [] => []
  | [], acc => [String.mk acc.reverse]
  | c :: cs, acc =>
    if c.isWhitespace then
      match acc with
      | [] => wsSplitAux cs []
      | _ :: _ => String.mk acc.reverse :: wsSplitAux cs []
    else wsSplitAux cs (c :: acc)

/-- Python's whitespace `str.split()` with no separator: maximal
non-whitespace runs, with no empty fields. -/
def pySplit (s : String) : List String := wsSplitAux s.data []

/-- The fixed taxonomy, in the declaration order of the Python dict
(lines 32-39). -/
def solidTypes : List String :=
  ["building", "highway", "grass", "ground", "waterway", "tree"]

/-- Case-insensitive prefix test:
`re.match(f"^{solid_type}", solid_name, re.IGNORECASE)` for the lowercase
ASCII taxonomy keys. -/
def ciPrefix (key nm : String) : Bool :=
  List.isPrefixOf key.data (nm.data.map Char.toLower)

/-- The first taxonomy key, in declared order, whose prefix matches
(the `for solid_type in solid_counts.keys(): ... break` loop). -/
def classify (nm : String) : Option String :=
  List.find? (fun k => ciPrefix k nm) solidTypes

/-- The `solid_counts` dictionary (lines 32-39). -/
structure SolidCounts where
  building : ℕ
  highway : ℕ
  grass : ℕ
  ground : ℕ
  waterway : ℕ
  tree : ℕ

deriving DecidableEq

def zeroCounts : SolidCounts := ⟨0, 0, 0, 0, 0, 0⟩

/-- `solid_counts[solid_type] += 1`. -/
def bump (c : SolidCounts) (k : String) : SolidCounts :=
  if k = "building" then { c with building := c.building + 1 }
  else if k = "highway" then { c with highway := c.highway + 1 }
  else if k = "grass" then { c with grass := c.grass + 1 }
  else if k = "ground" then { c with ground := c.ground + 1 }
  else if k = "waterway" then { c with waterway := c.waterway + 1 }
  else if k = "tree" then { c with tree := c.tree + 1 }
  else c

/-- `solid_counts[k]` (0 for a key outside the taxonomy). -/
def countsGet (c : SolidCounts) (k : String) : ℕ :=
  if k = "building" then c.building
  else if k = "highway" then c.highway
  else if k = "grass" then c.grass
  else if k = "ground" then c.ground
  else if k = "waterway" then c.waterway
  else if k = "tree" then c.tree
  else 0

/-- The total of all six counters. -/
def countsSum (c : SolidCounts) : ℕ :=
  c.building + c.highway + c.grass + c.ground + c.waterway + c.tree

/-- The solid-name branch for one (stripped) line (lines 54-61):
`solid_name = line.split()[1]` (IndexError when missing), then bump the
first matching taxonomy key, silently skipping unmatched names. -/
def lineSolidStep (c : SolidCounts) (t : String) : Except String SolidCounts :=
  if startsW t "solid" then
    match (pySplit t)[1]? with
    | none => Except.error "IndexError"
    | some nm =>
      Except.ok
        (match classify nm with
         | some k => bump c k
         | none => c)
  else Except.ok c

/-- The vertex branch for one (stripped) line (lines 64-65):
`_, x, y, z = line.split()` raises unless there are exactly 4 fields. -/
def lineVertexStep (t : String) : Except String Unit :=
  if startsW t "vertex" then
    (if (pySplit t).length = 4 then Except.ok () else Except.error "ValueError")
  else Except.ok ()

/-- The `for line in file` loop of `parse_stl`, carrying the counters. -/
def parseStlLoop : SolidCounts → List String → Except String SolidCounts
  | c, [] => Except.ok c
  | c, l :: rest =>
    match lineSolidStep c (pyStrip l) with
    | Except.error e => Except.error e
    | Except.ok c2 =>
      match lineVertexStep (pyStrip l) with
      | Except.error e => Except.error e
      | Except.ok _ => parseStlLoop c2 rest

/-- The solid counters computed by `parse_stl` on the file's lines. -/
def parse_stl_counts (ls : List String) : Except String SolidCounts :=
  parseStlLoop zeroCounts ls

/-- The solid names of the input, in file order. -/
def solidNamesOf (ls : List String) : List String :=
  ls.filterMap fun l =>
    if startsW (pyStrip l) "solid" then (pySplit (pyStrip l))[1]? else none

/-! # Theorems -/

/-! ## Branch-selection lemmas for the Newton loop

Each lemma exposes one branch of a single iteration of `findRLoop`, so that
concrete runs can be traced without asking the kernel to evaluate the
remaining fuel. -/

theorem findRLoop_step_conv {d : ℚ} {n : ℕ} {dl tol : ℚ} (fuel : ℕ) {r : ℚ}
    (h1 : |r - 1| < epsQ) :
    findRLoop d n dl tol (fuel + 1) r = Except.error convergeMsg := by
  show (if |r - 1| < epsQ then _ else _) = _
  rw [if_pos h1]

theorem findRLoop_step_ok {d : ℚ} {n : ℕ} {dl tol : ℚ} (fuel : ℕ) {r : ℚ}
    (h1 : ¬ |r - 1| < epsQ) (h2 : |fcode d n dl r| < tol) :
    findRLoop d n dl tol (fuel + 1) r = Except.ok r := by
  show (if |r - 1| < epsQ then _ else if |fcode d n dl r| < tol then _ else _) = _
  rw [if_neg h1, if_pos h2]

theorem findRLoop_step_deriv {d : ℚ} {n : ℕ} {dl tol : ℚ} (fuel : ℕ) {r : ℚ}
    (h1 : ¬ |r - 1| < epsQ) (h2 : ¬ |fcode d n dl r| < tol)
    (h3 : |fpcode d n r| < epsQ) :
    findRLoop d n dl tol (fuel + 1) r = Except.error derivMsg := by
  show (if |r - 1| < epsQ then _
        else if |fcode d n dl r| < tol then _
        else if |fpcode d n r| < epsQ then _ else _) = _
  rw [if_neg h1, if_neg h2, if_pos h3]

theorem findRLoop_step_next {d : ℚ} {n : ℕ} {dl tol : ℚ} (fuel : ℕ) {r r2 : ℚ}
    (h1 : ¬ |r - 1| < epsQ) (h2 : ¬ |fcode d n dl r| < tol)
    (h3 : ¬ |fpcode d n r| < epsQ)
    (hr2 : r - fcode d n dl r / fpcode d n r = r2)
    (h4 : ¬ |r2 - 1| < epsQ) :
    findRLoop d n dl tol (fuel + 1) r = findRLoop d n dl tol fuel r2 := by
  show (if |r - 1| < epsQ then _
        else if |fcode d n dl r| < tol then _
        else if |fpcode d n r| < epsQ then _
        else findRLoop d n dl tol fuel
          (if |(r - fcode d n dl r / fpcode d n r) - 1| < epsQ then nudgeQ
           else r - fcode d n dl r / fpcode d n r)) = _
  rw [if_neg h1, if_neg h2, if_neg h3, hr2, if_neg h4]

/-! # Helper lemmas on `ℚ` denominators, floors and rounding -/

lemma q_den_ne_one (q : ℚ) (h : ∀ k : ℤ, q ≠ (k : ℚ)) : q.den ≠ 1 := by
  intro hd
  exact h q.num (by rw [(Rat.den_eq_one_iff q).mp hd])

lemma q_den_one_of (q : ℚ) (k : ℤ) (h : q = (k : ℚ)) : q.den = 1 := by
  subst h; exact Rat.den_intCast k

/-- Banker's rounding always lands within 1/2 of its argument. -/
lemma pyRound_nearest (q : ℚ) : |q - (pyRound q : ℚ)| ≤ 1 / 2 := by
  have h0 : ((⌊q⌋ : ℚ)) ≤ q := Int.floor_le q
  have h1 : q < (⌊q⌋ : ℚ) + 1 := Int.lt_floor_add_one q
  unfold pyRound
  split_ifs with c1 c2 c3 <;>
    · rw [abs_le]
      push_cast
      constructor <;> linarith

/-! # C3 -/

/-- C3: on any axis whose exact cell count `(hi - lo)/gs` is not an integer,
`generate_grid_info` (via `adjustAxis`) rounds the count to a nearest integer
`R` (within 1/2), moves the far bound by `(R - count) * gs`, and the adjusted
extent divided by `gs` is then exactly `R`; `generate_grid_info` applies this
to each axis.  In particular for `lo = 0`, `hi = 10.3`, `gs = 1` the count
becomes 10 and the far bound becomes exactly `10.0`. -/
theorem adjust_axis_rounding (lo hi gs : ℚ) (mc : Microclimate) (hgs : gs ≠ 0)
    (hni : ((hi - lo) / gs).den ≠ 1) :
    (adjustAxis lo hi gs).2 = pyRound ((hi - lo) / gs) ∧
    (adjustAxis lo hi gs).1
      = hi + ((pyRound ((hi - lo) / gs) : ℚ) - (hi - lo) / gs) * gs ∧
    ((adjustAxis lo hi gs).1 - lo) / gs = ((adjustAxis lo hi gs).2 : ℚ) ∧
    |(hi - lo) / gs - ((adjustAxis lo hi gs).2 : ℚ)| ≤ 1 / 2 ∧
    (generate_grid_info mc).xf_max = (adjustAxis mc.xf_min mc.xf_max mc.gridSize).1 ∧
    (generate_grid_info mc).nx = (adjustAxis mc.xf_min mc.xf_max mc.gridSize).2 ∧
    (generate_grid_info mc).yf_max = (adjustAxis mc.yf_min mc.yf_max mc.gridSize).1 ∧
    (generate_grid_info mc).ny = (adjustAxis mc.yf_min mc.yf_max mc.gridSize).2 ∧
    (generate_grid_info mc).zf_max = (adjustAxis mc.zf_min mc.zf_max mc.gridSize).1 ∧
    (generate_grid_info mc).nz = (adjustAxis mc.zf_min mc.zf_max mc.gridSize).2 ∧
    adjustAxis 0 (103 / 10) 1 = (10, 10) := by
  have hax : adjustAxis lo hi gs
      = (hi + ((pyRound ((hi - lo) / gs) : ℚ) - (hi - lo) / gs) * gs,
         pyRound ((hi - lo) / gs)) := by
    unfold adjustAxis
    rw [if_neg hni]
  have hex : adjustAxis 0 (103 / 10) 1 = (10, 10) := by
    have hd : (((103 : ℚ) / 10 - 0) / 1).den ≠ 1 := by
      apply q_den_ne_one
      intro k hk
      have h10 : (10 : ℚ) * k = 103 := by
        field_simp at hk
        linarith
      have h10' : (10 * k : ℤ) = 103 := by exact_mod_cast h10
      omega
    have hfl : ⌊((103 : ℚ) / 10 - 0) / 1⌋ = 10 := by
      rw [Int.floor_eq_iff]
      constructor <;> norm_num
    have hpr : pyRound (((103 : ℚ) / 10 - 0) / 1) = 10 := by
      unfold pyRound
      rw [hfl, if_pos (by norm_num)]
    unfold adjustAxis
    rw [if_neg hd, hpr]
    norm_num
  refine ⟨by rw [hax], by rw [hax], ?_, ?_, rfl, rfl, rfl, rfl, rfl, rfl, hex⟩
  · rw [hax]
    field_simp
    ring
  · rw [hax]
    exact pyRound_nearest _

/-- In the integral case `adjustAxis` keeps the far bound and truncates. -/
lemma adjustAxis_int (lo hi gs : ℚ) (k : ℤ) (h : (hi - lo) / gs = (k : ℚ)) :
    adjustAxis lo hi gs = (hi, k) := by
  unfold adjustAxis
  rw [h, if_pos (Rat.den_intCast k), Rat.num_intCast]

/-- C3 witness: the rounding theorem applied to the spec's example axis. -/
theorem adjust_axis_rounding_witness :
    ((adjustAxis 0 (103 / 10) 1).1 - 0) / 1 = ((adjustAxis 0 (103 / 10) 1).2 : ℚ) ∧
    adjustAxis 0 (103 / 10) 1 = (10, 10) := by
  have hni : (((103 : ℚ) / 10 - 0) / 1).den ≠ 1 := by
    apply q_den_ne_one
    intro k hk
    have h10 : (10 : ℚ) * k = 103 := by
      field_simp at hk
      linarith
    have h10' : (10 * k : ℤ) = 103 := by exact_mod_cast h10
    omega
  have h := adjust_axis_rounding 0 (103 / 10) 1
    ⟨0, 8, 0, 4, 0, 6, 1, 1 / 2, 0⟩ (by norm_num) hni
  exact ⟨h.2.2.1, h.2.2.2.2.2.2.2.2.2.2⟩

/-- C4 counterexample: with `mcExample` the buffer length is
`delta * yf_max = 2`, which differs from `delta` times the far bound
(urban or extended) of both two-sided-buffer axes (x and z). -/
theorem buffer_length_axis_cex :
    (generate_grid_info mcExample).buffer_length = 2 ∧
    (generate_grid_info mcExample).buffer_length
      ≠ mcExample.delta * (generate_grid_info mcExample).xf_max ∧
    (generate_grid_info mcExample).buffer_length
      ≠ mcExample.delta * (generate_grid_info mcExample).zf_max ∧
    (generate_grid_info mcExample).buffer_length
      ≠ mcExample.delta * (generate_grid_info mcExample).x_max ∧
    (generate_grid_info mcExample).buffer_length
      ≠ mcExample.delta * (generate_grid_info mcExample).z_max ∧
    (generate_grid_info mcExample).buffer_length
      = mcExample.delta * (generate_grid_info mcExample).yf_max := by
  have h1 : adjustAxis (0 : ℚ) 8 1 = (8, 8) := adjustAxis_int _ _ _ 8 (by norm_num)
  have h2 : adjustAxis (0 : ℚ) 4 1 = (4, 4) := adjustAxis_int _ _ _ 4 (by norm_num)
  have h3 : adjustAxis (0 : ℚ) 6 1 = (6, 6) := adjustAxis_int _ _ _ 6 (by norm_num)
  have hmc1 : mcExample.xf_min = 0 := rfl
  simp only [generate_grid_info, mcExample, h1, h2, h3]
  norm_num

/-- C4 (amended): the buffer length is `delta` times the adjusted far bound
of the one-buffer axis (y), and the extended bounds are the urban bounds
pushed outward by the buffer length on the buffered sides only: x and z on
both sides, y on its far side with `y_min` left unchanged. -/
theorem buffer_length_and_extended_bounds (mc : Microclimate) :
    (generate_grid_info mc).buffer_length
      = mc.delta * (generate_grid_info mc).yf_max ∧
    (generate_grid_info mc).x_min
      = mc.xf_min - (generate_grid_info mc).buffer_length ∧
    (generate_grid_info mc).x_max
      = (generate_grid_info mc).xf_max + (generate_grid_info mc).buffer_length ∧
    (generate_grid_info mc).y_min = mc.yf_min ∧
    (generate_grid_info mc).y_max
      = (generate_grid_info mc).yf_max + (generate_grid_info mc).buffer_length ∧
    (generate_grid_info mc).z_min
      = mc.zf_min - (generate_grid_info mc).buffer_length ∧
    (generate_grid_info mc).z_max
      = (generate_grid_info mc).zf_max + (generate_grid_info mc).buffer_length :=
  ⟨rfl, rfl, rfl, rfl, rfl, rfl, rfl⟩

/-! # C5 -/

/-- C5 counterexample: with zero buffer cells, `dx_min = 1`,
`buffer_length = 10` and 2 urban cells, the two-buffer builder does NOT
return the 2 uniform widths: the unconditional `find_r(dx_min, 0, L)` call
dies with the derivative error (for `n = 0` both derivative terms vanish). -/
theorem two_buffers_zero_calls_solver_cex :
    generate_grid_with_two_buffers 0 1 10 2 = Except.error derivMsg := by
  have h1 : ¬ |(11 : ℚ) / 10 - 1| < epsQ := by norm_num [abs_lt, epsQ]
  have h2 : ¬ |fcode 1 0 10 (11 / 10)| < tolQ := by
    norm_num [abs_lt, fcode, tolQ]
  have h3 : |fpcode 1 0 (11 / 10)| < epsQ := by
    norm_num [fpcode, epsQ]
  have : find_r 1 0 10 = Except.error derivMsg := findRLoop_step_deriv 999 h1 h2 h3
  simp [generate_grid_with_two_buffers, this, Except.map]

/-- C5 (amended): `generate_grid_with_two_buffers buffer_grids dx_min L n`
with `buffer_grids = 0` still calls `find_r` with `n = 0`; since the `n = 0`
residual is constantly `-L` and the derivative is constantly `0`, the call
raises the derivative error whenever `|L| ≥ 1e-6`, and only when
`|L| < 1e-6` does the builder return the `n` uniform widths. -/
theorem two_buffers_zero_buffer_behavior (d L : ℚ) (m : ℕ) :
    (tolQ ≤ |L| →
      generate_grid_with_two_buffers 0 d L m = Except.error derivMsg) ∧
    (|L| < tolQ →
      generate_grid_with_two_buffers 0 d L m = Except.ok (List.replicate m d)) := by
  have h1 : ¬ |(11 : ℚ) / 10 - 1| < epsQ := by norm_num [abs_lt, epsQ]
  have hf : fcode d 0 L (11 / 10) = -L := by
    simp [fcode]
  have hfp : fpcode d 0 (11 / 10) = 0 := by
    simp [fpcode]
  constructor
  · intro hL
    have h2 : ¬ |fcode d 0 L (11 / 10)| < tolQ := by
      rw [hf, abs_neg]
      exact not_lt.2 hL
    have h3 : |fpcode d 0 (11 / 10)| < epsQ := by
      rw [hfp]
      norm_num [epsQ]
    have hr : find_r d 0 L = Except.error derivMsg := findRLoop_step_deriv 999 h1 h2 h3
    simp [generate_grid_with_two_buffers, hr, Except.map]
  · intro hL
    have h2 : |fcode d 0 L (11 / 10)| < tolQ := by
      rw [hf, abs_neg]
      exact hL
    have hr : find_r d 0 L = Except.ok (11 / 10) := findRLoop_step_ok 999 h1 h2
    simp [generate_grid_with_two_buffers, hr, geomRun, Except.map]

/-- C5 witness: the amended statement at `(d, L, m) = (1, 10, 2)` (error
branch) and `(1, 0, 2)` (uniform-widths branch). -/
theorem two_buffers_zero_buffer_witness :
    generate_grid_with_two_buffers 0 1 10 2 = Except.error derivMsg ∧
    generate_grid_with_two_buffers 0 1 0 2 = Except.ok [1, 1] := by
  constructor
  · exact (two_buffers_zero_buffer_behavior 1 10 2).1
      (by rw [show |(10 : ℚ)| = 10 from abs_of_nonneg (by norm_num)]; norm_num [tolQ])
  · have h := (two_buffers_zero_buffer_behavior 1 0 2).2
      (by rw [show |(0 : ℚ)| = 0 from abs_of_nonneg le_rfl]; norm_num [tolQ])
    simpa using h

/-! # C1 / C8: analysis of the Newton-Raphson solver -/

/-- Away from the pole the coded residual is the polynomial
`d * (1 + r + ... + r^(n-1)) - delta`. -/
lemma fcode_eq_sum (d dl r : ℚ) (n : ℕ) (hr : r ≠ 1) :
    fcode d n dl r = d * (∑ i in Finset.range n, r ^ i) - dl := by
  have h1 : (1 - r ^ n) / (1 - r) = (r ^ n - 1) / (r - 1) := by
    rw [← neg_sub (r ^ n) 1, ← neg_sub r 1, neg_div_neg_eq]
  unfold fcode
  rw [geom_sum_eq hr, mul_div_assoc, h1]

/-- Polynomial form of the quotient-rule numerator of the coded derivative. -/
lemma dgeom_poly (r : ℚ) (k : ℕ) :
    -((k : ℚ) + 1) * r ^ k * (1 - r) + (1 - r ^ (k + 1))
      = (∑ j in Finset.range k, ((j : ℚ) + 1) * r ^ j) * (1 - r) ^ 2 := by
  induction k with
  | zero => simp
  | succ k ih =>
    rw [Finset.sum_range_succ, add_mul, ← ih]
    push_cast
    ring

/-- Away from the pole the coded derivative is the polynomial
`d * (1 + 2r + ... + (n-1) r^(n-2))` (here `n = k + 1`). -/
lemma fpcode_eq_sum (d r : ℚ) (k : ℕ) (hr : r ≠ 1) :
    fpcode d (k + 1) r = d * ∑ j in Finset.range k, ((j : ℚ) + 1) * r ^ j := by
  have hne : (1 : ℚ) - r ≠ 0 := sub_ne_zero.mpr (Ne.symm hr)
  have hz : r ^ (((k + 1 : ℕ) : ℤ) - 1) = r ^ (k : ℕ) := by
    have hc : ((k + 1 : ℕ) : ℤ) - 1 = (k : ℤ) := by push_cast; ring
    rw [hc, zpow_natCast]
  have hpoly := dgeom_poly r k
  unfold fpcode
  rw [hz]
  field_simp
  linear_combination (d * (1 - r)) * hpoly

/-- The polynomial derivative is positive for positive `r` (and `k ≥ 1`). -/
lemma dsum_pos (r : ℚ) (k : ℕ) (hk : 1 ≤ k) (hr : 0 < r) :
    0 < ∑ j in Finset.range k, ((j : ℚ) + 1) * r ^ j := by
  apply Finset.sum_pos
  · intro j _
    have hj : (0 : ℚ) < (j : ℚ) + 1 := by positivity
    exact mul_pos hj (pow_pos hr j)
  · exact Finset.nonempty_range_iff.mpr (by omega)

/-- Bernoulli-style bound: for `r ≥ 1`, `r^(j+1) - 1 ≤ (r-1)(j+1) r^j`. -/
lemma pow_sub_one_le (r : ℚ) (hr : 1 ≤ r) :
    ∀ j : ℕ, r ^ (j + 1) - 1 ≤ (r - 1) * (((j : ℚ) + 1) * r ^ j) := by
  intro j
  induction j with
  | zero => simp
  | succ j ih =>
    have hrpow : (1 : ℚ) ≤ r ^ (j + 1) := one_le_pow₀ hr
    have h2 : r * (r ^ (j + 1) - 1) ≤ r * ((r - 1) * (((j : ℚ) + 1) * r ^ j)) :=
      mul_le_mul_of_nonneg_left ih (by linarith)
    have h2' : r * ((r - 1) * (((j : ℚ) + 1) * r ^ j))
        = (r - 1) * (((j : ℚ) + 1) * r ^ (j + 1)) := by ring
    have h3 : (r - 1) * 1 ≤ (r - 1) * r ^ (j + 1) :=
      mul_le_mul_of_nonneg_left hrpow (by linarith)
    rw [mul_one] at h3
    rw [h2'] at h2
    push_cast
    calc r ^ (j + 1 + 1) - 1 = r * (r ^ (j + 1) - 1) + (r - 1) := by ring
      _ ≤ (r - 1) * (((j : ℚ) + 1) * r ^ (j + 1)) + (r - 1) * r ^ (j + 1) := by
          linarith
      _ = (r - 1) * (((j : ℚ) + 1 + 1) * r ^ (j + 1)) := by ring

/-- Tangent-line (convexity) bound for the geometric-sum polynomial:
`p(1) ≥ p(r) + p'(r) (1 - r)` in expanded form. -/
lemma tangent_bound (r : ℚ) (k : ℕ) (hr : 1 ≤ r) :
    (∑ i in Finset.range (k + 1), r ^ i) - ((k : ℚ) + 1)
      ≤ (r - 1) * ∑ j in Finset.range k, ((j : ℚ) + 1) * r ^ j := by
  have h1 : (∑ i in Finset.range (k + 1), r ^ i) - ((k : ℚ) + 1)
      = ∑ i in Finset.range (k + 1), (r ^ i - 1) := by
    rw [Finset.sum_sub_distrib]
    simp [Finset.sum_const, Finset.card_range]
  have h2 : ∑ i in Finset.range (k + 1), (r ^ i - 1)
      = ∑ j in Finset.range k, (r ^ (j + 1) - 1) := by
    rw [Finset.sum_range_succ']
    simp
  rw [h1, h2, Finset.mul_sum]
  exact Finset.sum_le_sum fun j _ => pow_sub_one_le r hr j

/-- One Newton update from a point `r ≥ 1 + 1e-10` lands strictly above 1,
whenever `d > 0`, `n ≥ 2` and `delta > n * d`. -/
lemma newton_stays_gt_one (d dl : ℚ) (n : ℕ) (hd : 0 < d) (hn : 2 ≤ n)
    (hdl : (n : ℚ) * d < dl) (r : ℚ) (hr : 1 + epsQ ≤ r) :
    1 < r - fcode d n dl r / fpcode d n r := by
  have hεp : (0 : ℚ) < epsQ := by norm_num [epsQ]
  have hrne : r ≠ 1 := by
    intro h
    rw [h] at hr
    linarith
  obtain ⟨k, rfl⟩ : ∃ k, n = k + 1 := ⟨n - 1, by omega⟩
  have hk1 : 1 ≤ k := by omega
  have hrpos : (0 : ℚ) < r := by linarith
  have hr1 : (1 : ℚ) ≤ r := by linarith
  have hS := fpcode_eq_sum d r k hrne
  have hSpos : 0 < ∑ j in Finset.range k, ((j : ℚ) + 1) * r ^ j := dsum_pos r k hk1 hrpos
  have hfp : 0 < fpcode d (k + 1) r := by
    rw [hS]
    exact mul_pos hd hSpos
  have htan := tangent_bound r k hr1
  have hns : d * ((∑ i in Finset.range (k + 1), r ^ i) - ((k : ℚ) + 1))
      ≤ d * ((r - 1) * ∑ j in Finset.range k, ((j : ℚ) + 1) * r ^ j) :=
    mul_le_mul_of_nonneg_left htan (le_of_lt hd)
  have hkey : fcode d (k + 1) dl r < fpcode d (k + 1) r * (r - 1) := by
    rw [fcode_eq_sum d dl r (k + 1) hrne, hS]
    push_cast at hdl
    nlinarith [hns]
  have hdiv : fcode d (k + 1) dl r / fpcode d (k + 1) r < r - 1 :=
    (div_lt_iff₀ hfp).mpr (by linarith [hkey])
  linarith

/-- If the loop returns a ratio from a state `r ≥ 1 + 1e-10`, that ratio is
above 1 and meets the tolerance (hypotheses as in `newton_stays_gt_one`). -/
lemma findRLoop_ok_inv (d dl : ℚ) (n : ℕ) (hd : 0 < d) (hn : 2 ≤ n)
    (hdl : (n : ℚ) * d < dl) :
    ∀ fuel r q, 1 + epsQ ≤ r → findRLoop d n dl tolQ fuel r = Except.ok q →
      1 < q ∧ |fcode d n dl q| < tolQ := by
  intro fuel
  induction fuel with
  | zero =>
    intro r q _ h
    simp [findRLoop] at h
  | succ fuel ih =>
    intro r q hr h
    have hεp : (0 : ℚ) < epsQ := by norm_num [epsQ]
    rw [show findRLoop d n dl tolQ (fuel + 1) r =
        (if |r - 1| < epsQ then Except.error convergeMsg
         else if |fcode d n dl r| < tolQ then Except.ok r
         else if |fpcode d n r| < epsQ then Except.error derivMsg
         else findRLoop d n dl tolQ fuel
           (if |(r - fcode d n dl r / fpcode d n r) - 1| < epsQ then nudgeQ
            else r - fcode d n dl r / fpcode d n r)) from rfl] at h
    by_cases h1 : |r - 1| < epsQ
    · rw [if_pos h1] at h
      exact absurd h (by simp)
    rw [if_neg h1] at h
    by_cases h2 : |fcode d n dl r| < tolQ
    · rw [if_pos h2] at h
      obtain rfl : r = q := by injection h
      exact ⟨by linarith, h2⟩
    rw [if_neg h2] at h
    by_cases h3 : |fpcode d n r| < epsQ
    · rw [if_pos h3] at h
      exact absurd h (by simp)
    rw [if_neg h3] at h
    have hgt : 1 < r - fcode d n dl r / fpcode d n r :=
      newton_stays_gt_one d dl n hd hn hdl r hr
    by_cases h4 : |(r - fcode d n dl r / fpcode d n r) - 1| < epsQ
    · rw [if_pos h4] at h
      exact ih nudgeQ q (by norm_num [nudgeQ, epsQ]) h
    · rw [if_neg h4] at h
      refine ih _ q ?_ h
      have habs : epsQ ≤ |(r - fcode d n dl r / fpcode d n r) - 1| := not_lt.mp h4
      rw [abs_of_pos (by linarith : (0 : ℚ) < (r - fcode d n dl r / fpcode d n r) - 1)]
        at habs
      linarith

/-- C1 counterexample: `dx_min = 1e-11, n = 3, delta = 1` satisfies the
claim's hypotheses (`n ≥ 2`, `delta > n * dx_min`, a positive minimum cell
width), yet `find_r` raises the derivative error on its very first iteration
(`f'(1.1) = 3.2e-11 < 1e-10`) instead of returning any ratio. -/
theorem find_r_valid_input_raises_cex :
    2 ≤ 3 ∧ (0 : ℚ) < 1 / 10 ^ 11 ∧ (3 : ℚ) * (1 / 10 ^ 11) < 1 ∧
    find_r (1 / 10 ^ 11) 3 1 = Except.error derivMsg := by
  refine ⟨by norm_num, by norm_num, by norm_num, ?_⟩
  exact findRLoop_step_deriv 999 (by norm_num [abs_lt, epsQ])
    (by norm_num [abs_lt, fcode, tolQ]) (by norm_num [abs_lt, fpcode, epsQ])

/-- C1 (amended): for `dx_min > 0`, `n ≥ 2`, `delta > n * dx_min`, whenever
`find_r` does return a ratio `q` (it may instead raise a convergence or
derivative error), that ratio satisfies `q > 1` and the residual
`|dx_min (1 - q^n)/(1 - q) - delta|` is strictly below `1e-6`. -/
theorem find_r_success_ratio_and_residual (d dl q : ℚ) (n : ℕ)
    (hd : 0 < d) (hn : 2 ≤ n) (hdl : (n : ℚ) * d < dl)
    (hok : find_r d n dl = Except.ok q) :
    1 < q ∧ |d * (1 - q ^ n) / (1 - q) - dl| < 1 / 1000000 := by
  have h := findRLoop_ok_inv d dl n hd hn hdl 1000 (11 / 10) q
    (by norm_num [epsQ]) hok
  refine ⟨h.1, ?_⟩
  have h2 := h.2
  rw [fcode] at h2
  rw [show (1 : ℚ) / 1000000 = tolQ from rfl]
  exact h2

/-- C1 witness: `find_r 1 2 3` converges to the exact root 2, which the
theorem certifies to be `> 1` with residual below the tolerance. -/

theorem find_r_success_witness :
    1 < (2 : ℚ) ∧ |(1 : ℚ) * (1 - (2 : ℚ) ^ 2) / (1 - 2) - 3| < 1 / 1000000 := by
  have hok : find_r 1 2 3 = Except.ok 2 := by
    have e1 : findRLoop 1 2 3 tolQ (999 + 1) (11 / 10) = findRLoop 1 2 3 tolQ 999 2 :=
      findRLoop_step_next 999 (by norm_num [abs_lt, epsQ])
        (by norm_num [abs_lt, fcode, tolQ]) (by norm_num [abs_lt, fpcode, epsQ])
        (by norm_num [fcode, fpcode]) (by norm_num [abs_lt, epsQ])
    have e2 : findRLoop 1 2 3 tolQ (998 + 1) 2 = Except.ok 2 :=
      findRLoop_step_ok 998 (by norm_num [abs_lt, epsQ]) (by norm_num [abs_lt, fcode, tolQ])
    exact e1.trans e2
  exact find_r_success_ratio_and_residual 1 3 2 2 (by norm_num) (by norm_num)
    (by norm_num) hok

/-! # C8: the two failure modes of `find_r` -/

/-- Exhaustive case split of one run of the Newton loop: it either returns
a ratio meeting the tolerance, or fails with the convergence message, or
fails with the derivative message — there is no other outcome and no
default ratio. -/
lemma findRLoop_trichotomy (d dl tol : ℚ) (n : ℕ) :
    ∀ fuel r, (∃ q, findRLoop d n dl tol fuel r = Except.ok q ∧ |fcode d n dl q| < tol) ∨
      findRLoop d n dl tol fuel r = Except.error convergeMsg ∨
      findRLoop d n dl tol fuel r = Except.error derivMsg := by
  intro fuel
  induction fuel with
  | zero => exact fun r => Or.inr (Or.inl rfl)
  | succ fuel ih =>
    intro r
    rw [show findRLoop d n dl tol (fuel + 1) r =
        (if |r - 1| < epsQ then Except.error convergeMsg
         else if |fcode d n dl r| < tol then Except.ok r
         else if |fpcode d n r| < epsQ then Except.error derivMsg
         else findRLoop d n dl tol fuel
           (if |(r - fcode d n dl r / fpcode d n r) - 1| < epsQ then nudgeQ
            else r - fcode d n dl r / fpcode d n r)) from rfl]
    by_cases h1 : |r - 1| < epsQ
    · rw [if_pos h1]
      exact Or.inr (Or.inl rfl)
    rw [if_neg h1]
    by_cases h2 : |fcode d n dl r| < tol
    · rw [if_pos h2]
      exact Or.inl ⟨r, rfl, h2⟩
    rw [if_neg h2]
    by_cases h3 : |fpcode d n r| < epsQ
    · rw [if_pos h3]
      exact Or.inr (Or.inr rfl)
    rw [if_neg h3]
    exact ih _

/-- C8: `find_r`'s two failure modes.  (i) The two error messages are
distinct strings, so a caller can tell them apart.  (ii) An exhausted
iteration budget yields exactly the convergence error.  (iii) `find_r` is
the loop with its default budget of 1000 iterations from `r = 1.1`.
(iv) As soon as `|f'(r)| < 1e-10` at a reachable iterate (not near the pole,
not yet converged), the loop stops immediately with the derivative error.
(v) Every run either returns a ratio whose residual beats the tolerance or
raises one of the two errors — no default ratio is ever substituted. -/
theorem find_r_error_modes (d dl r : ℚ) (n fuel : ℕ) :
    convergeMsg ≠ derivMsg ∧
    findRLoop d n dl tolQ 0 r = Except.error convergeMsg ∧
    find_r d n dl = findRLoop d n dl tolQ 1000 (11 / 10) ∧
    ((¬ |r - 1| < epsQ) → (¬ |fcode d n dl r| < tolQ) → |fpcode d n r| < epsQ →
      findRLoop d n dl tolQ (fuel + 1) r = Except.error derivMsg) ∧
    ((∃ q, find_r d n dl = Except.ok q ∧ |fcode d n dl q| < tolQ) ∨
      find_r d n dl = Except.error convergeMsg ∨
      find_r d n dl = Except.error derivMsg) := by
  refine ⟨by decide, rfl, rfl, ?_, ?_⟩
  · intro h1 h2 h3
    exact findRLoop_step_deriv fuel h1 h2 h3
  · exact findRLoop_trichotomy d dl tolQ n 1000 (11 / 10)

/-- C8 witness: the error-mode theorem applied at `d = 1, n = 0, dl = 10`,
where the first iterate has a vanishing derivative. -/
theorem find_r_error_modes_witness :
    findRLoop 1 0 10 tolQ (999 + 1) (11 / 10) = Except.error derivMsg :=
  (find_r_error_modes 1 10 (11 / 10) 0 999).2.2.2.1
    (by norm_num [abs_lt, epsQ]) (by norm_num [abs_lt, fcode, tolQ])
    (by norm_num [abs_lt, fpcode, epsQ])

/-! # C2: shape of the two-buffer grid -/

/-- Closed form of a geometric run: `[dx, dx*r, ..., dx*r^(n-1)]`. -/
lemma geomRun_eq_map (dx r : ℚ) (n : ℕ) :
    geomRun dx r n = (List.range n).map (fun i => dx * r ^ i) := by
  induction n generalizing dx with
  | zero => rfl
  | succ n ih =>
    rw [geomRun, ih (dx * r), List.range_succ_eq_map, List.map_cons, List.map_map]
    refine congrArg₂ _ (by ring) (List.map_congr_left fun i _ => ?_)
    simp [Function.comp, pow_succ]
    ring

lemma geomRun_length (dx r : ℚ) (n : ℕ) : (geomRun dx r n).length = n := by
  rw [geomRun_eq_map, List.length_map, List.length_range]

/-- A geometric run with ratio `≥ 1` and positive start is non-decreasing. -/
lemma geomRun_pairwise_le (dx r : ℚ) (n : ℕ) (hdx : 0 < dx) (hr : 1 ≤ r) :
    (geomRun dx r n).Pairwise (· ≤ ·) := by
  rw [geomRun_eq_map, List.pairwise_map]
  refine (List.pairwise_lt_range n).imp fun hij => ?_
  exact mul_le_mul_of_nonneg_left (pow_le_pow_right₀ hr (le_of_lt hij)) (le_of_lt hdx)

/-- C2: whenever the solver converges to `r > 1` (and `buffer_grids ≥ 1`,
`dx_min > 0`), the two-buffer grid is the reversed geometric run, then
`n_urban_cells` copies of `dx_min`, then the same geometric run; hence it has
`2*buffer_grids + n_urban_cells` entries, its first `buffer_grids` entries
are non-increasing toward the core, its middle entries all equal `dx_min`,
and its last `buffer_grids` entries are non-decreasing away from the core. -/
theorem two_buffer_grid_structure (bg nUrban : ℕ) (d L r : ℚ)
    (hbg : 1 ≤ bg) (hd : 0 < d) (hok : find_r d bg L = Except.ok r) (hr : 1 < r) :
    ∃ g, generate_grid_with_two_buffers bg d L nUrban = Except.ok g ∧
      g = (geomRun d r bg).reverse ++ List.replicate nUrban d ++ geomRun d r bg ∧
      g.length = 2 * bg + nUrban ∧
      g.take bg = (geomRun d r bg).reverse ∧
      (g.drop bg).take nUrban = List.replicate nUrban d ∧
      g.drop (bg + nUrban) = geomRun d r bg ∧
      (g.take bg).Pairwise (· ≥ ·) ∧
      (∀ x ∈ (g.drop bg).take nUrban, x = d) ∧
      (g.drop (bg + nUrban)).Pairwise (· ≤ ·) := by
  refine ⟨(geomRun d r bg).reverse ++ List.replicate nUrban d ++ geomRun d r bg,
    by simp [generate_grid_with_two_buffers, hok, Except.map], rfl, ?_, ?_, ?_, ?_, ?_, ?_, ?_⟩
  · simp [geomRun_length, List.length_replicate, List.length_append]
    ring
  · rw [List.append_assoc]
    exact List.take_left' (by simp [geomRun_length])
  · rw [List.append_assoc, List.drop_left' (by simp [geomRun_length])]
    exact List.take_left' (by simp)
  · rw [List.append_assoc, ← List.drop_drop, List.drop_left' (by simp [geomRun_length]),
      List.drop_left' (by simp)]
  · rw [List.append_assoc, List.take_left' (by simp [geomRun_length]),
      List.pairwise_reverse]
    exact geomRun_pairwise_le d r bg hd (le_of_lt hr)
  · rw [List.append_assoc, List.drop_left' (by simp [geomRun_length]),
      List.take_left' (by simp)]
    exact fun x hx => List.eq_of_mem_replicate hx
  · rw [List.append_assoc, ← List.drop_drop, List.drop_left' (by simp [geomRun_length]),
      List.drop_left' (by simp)]
    exact geomRun_pairwise_le d r bg hd (le_of_lt hr)

/-- The solver run used by the grid-structure witness: for
`dx_min = 1, n = 2, delta = 3` Newton converges to the exact root 2. -/
lemma find_r_one_two_three : find_r 1 2 3 = Except.ok 2 := by
  have e1 : findRLoop 1 2 3 tolQ (999 + 1) (11 / 10) = findRLoop 1 2 3 tolQ 999 2 :=
    findRLoop_step_next 999 (by norm_num [abs_lt, epsQ])
      (by norm_num [abs_lt, fcode, tolQ]) (by norm_num [abs_lt, fpcode, epsQ])
      (by norm_num [fcode, fpcode]) (by norm_num [abs_lt, epsQ])
  have e2 : findRLoop 1 2 3 tolQ (998 + 1) 2 = Except.ok 2 :=
    findRLoop_step_ok 998 (by norm_num [abs_lt, epsQ]) (by norm_num [abs_lt, fcode, tolQ])
  exact e1.trans e2

/-- C2 witness: the structure theorem at
`buffer_grids = 2, dx_min = 1, buffer_length = 3, n_urban_cells = 1, r = 2`. -/
theorem two_buffer_grid_structure_witness :
    ∃ g, generate_grid_with_two_buffers 2 1 3 1 = Except.ok g ∧
      g = (geomRun 1 2 2).reverse ++ List.replicate 1 1 ++ geomRun 1 2 2 ∧
      g.length = 2 * 2 + 1 ∧
      g.take 2 = (geomRun 1 2 2).reverse ∧
      (g.drop 2).take 1 = List.replicate 1 1 ∧
      g.drop (2 + 1) = geomRun 1 2 2 ∧
      (g.take 2).Pairwise (· ≥ ·) ∧
      (∀ x ∈ (g.drop 2).take 1, x = 1) ∧
      (g.drop (2 + 1)).Pairwise (· ≤ ·) :=
  two_buffer_grid_structure 2 1 1 3 2 (by norm_num) (by norm_num)
    find_r_one_two_three (by norm_num)

/-! ## Loop facts: one-step branch lemmas and fuel irrelevance -/

lemma splitLoopF_nil (fuel : ℕ) (cs : String) (si : ℕ) :
    splitLoopF fuel cs si [] = Except.ok [] := by
  cases fuel <;> rfl

lemma splitLoopF_cons (fuel : ℕ) (cs : String) (si : ℕ) (l : String)
    (rest : List String) :
    splitLoopF (fuel + 1) cs si (l :: rest) =
      (if isSolidOpenL l then
        match afterFirstSpace (pyStrip l).data with
        | none => Except.error "IndexError"
        | some nm => splitLoopF fuel (String.mk nm) 0 rest
      else if isFacetOpenL l then
        match (l :: rest).dropWhile (fun x => !(isEndFacetL x)) with
        | [] => Except.error "IndexError"
        | ef :: rest2 =>
          (splitLoopF fuel cs (si + 1) rest2).map fun out =>
            (synthOpen cs si ::
              ((l :: rest).takeWhile (fun x => !(isEndFacetL x))
                ++ [ef] ++ [synthClose cs si])) ++ out
      else if isEndSolidL l then splitLoopF fuel cs si rest
      else splitLoopF fuel cs si rest) := rfl

lemma splitLoopF_step_solid (fuel : ℕ) (cs : String) (si : ℕ) (l : String)
    (rest : List String) (nm : List Char)
    (h1 : isSolidOpenL l = true) (hafs : afterFirstSpace (pyStrip l).data = some nm) :
    splitLoopF (fuel + 1) cs si (l :: rest) = splitLoopF fuel (String.mk nm) 0 rest := by
  rw [splitLoopF_cons, if_pos h1, hafs]

lemma splitLoopF_step_skip (fuel : ℕ) (cs : String) (si : ℕ) (l : String)
    (rest : List String)
    (h1 : isSolidOpenL l = false) (h2 : isFacetOpenL l = false) :
    splitLoopF (fuel + 1) cs si (l :: rest) = splitLoopF fuel cs si rest := by
  rw [splitLoopF_cons, if_neg (by simp [h1]), if_neg (by simp [h2])]
  exact ite_self _

lemma splitLoopF_step_facet (fuel : ℕ) (cs : String) (si : ℕ) (l : String)
    (rest : List String) (ef : String) (rest2 : List String)
    (h1 : isSolidOpenL l = false) (h2 : isFacetOpenL l = true)
    (hdw : (l :: rest).dropWhile (fun x => !(isEndFacetL x)) = ef :: rest2) :
    splitLoopF (fuel + 1) cs si (l :: rest)
      = (splitLoopF fuel cs (si + 1) rest2).map fun out =>
          (synthOpen cs si ::
            ((l :: rest).takeWhile (fun x => !(isEndFacetL x))
              ++ [ef] ++ [synthClose cs si])) ++ out := by
  rw [splitLoopF_cons, if_neg (by simp [h1]), if_pos h2, hdw]

lemma splitLoopF_step_unterminated (fuel : ℕ) (cs : String) (si : ℕ) (l : String)
    (rest : List String)
    (h1 : isSolidOpenL l = false) (h2 : isFacetOpenL l = true)
    (hdw : (l :: rest).dropWhile (fun x => !(isEndFacetL x)) = []) :
    splitLoopF (fuel + 1) cs si (l :: rest) = Except.error "IndexError" := by
  rw [splitLoopF_cons, if_neg (by simp [h1]), if_pos h2, hdw]

/-- The loop's value does not depend on the fuel, provided the fuel covers
the number of remaining lines (each iteration consumes at least one line). -/
lemma splitLoopF_fuel_irrel :
    ∀ (fuel1 fuel2 : ℕ) (cs : String) (si : ℕ) (ls : List String),
      ls.length ≤ fuel1 → ls.length ≤ fuel2 →
      splitLoopF fuel1 cs si ls = splitLoopF fuel2 cs si ls := by
  intro fuel1
  induction fuel1 with
  | zero =>
    intro fuel2 cs si ls h1 _
    have hnil : ls = [] := List.length_eq_zero.mp (by omega)
    subst hnil
    rw [splitLoopF_nil, splitLoopF_nil]
  | succ f1 ih =>
    intro fuel2 cs si ls h1 h2
    cases ls with
    | nil => rw [splitLoopF_nil, splitLoopF_nil]
    | cons l rest =>
      cases fuel2 with
      | zero =>
        exfalso
        simp [List.length_cons] at h2
      | succ f2 =>
        have hr1 : rest.length ≤ f1 := by
          simp [List.length_cons] at h1
          omega
        have hr2 : rest.length ≤ f2 := by
          simp [List.length_cons] at h2
          omega
        by_cases hs : isSolidOpenL l
        · cases hafs : afterFirstSpace (pyStrip l).data with
          | none =>
            rw [splitLoopF_cons, splitLoopF_cons, if_pos hs, if_pos hs, hafs]
          | some nm =>
            rw [splitLoopF_step_solid f1 cs si l rest nm hs hafs,
              splitLoopF_step_solid f2 cs si l rest nm hs hafs]
            exact ih f2 _ 0 rest hr1 hr2
        · have hs' : isSolidOpenL l = false := by simpa using hs
          by_cases hf : isFacetOpenL l
          · cases hdw : (l :: rest).dropWhile (fun x => !(isEndFacetL x)) with
            | nil =>
              rw [splitLoopF_step_unterminated f1 cs si l rest hs' hf hdw,
                splitLoopF_step_unterminated f2 cs si l rest hs' hf hdw]
            | cons ef rest2 =>
              have hlen : rest2.length ≤ rest.length := by
                have hsub := (List.dropWhile_sublist
                  (l := l :: rest) (p := fun x => !(isEndFacetL x))).length_le
                rw [hdw] at hsub
                simp [List.length_cons] at hsub
                omega
              rw [splitLoopF_step_facet f1 cs si l rest ef rest2 hs' hf hdw,
                splitLoopF_step_facet f2 cs si l rest ef rest2 hs' hf hdw,
                ih f2 cs (si + 1) rest2 (le_trans hlen hr1) (le_trans hlen hr2)]
          · have hf' : isFacetOpenL l = false := by simpa using hf
            rw [splitLoopF_step_skip f1 cs si l rest hs' hf',
              splitLoopF_step_skip f2 cs si l rest hs' hf']
            exact ih f2 cs si rest hr1 hr2

lemma splitLoopF_eq_runSplit (fuel : ℕ) (cs : String) (si : ℕ) (ls : List String)
    (h : ls.length ≤ fuel) : splitLoopF fuel cs si ls = runSplit cs si ls :=
  splitLoopF_fuel_irrel fuel ls.length cs si ls h le_rfl

/-! ## Capturing a facet and composing whole files -/

lemma takeWhile_append_all {p : String → Bool} :
    ∀ (A B : List String), (∀ a ∈ A, p a = true) →
      (A ++ B).takeWhile p = A ++ B.takeWhile p := by
  intro A
  induction A with
  | nil => intro B _; rfl
  | cons a A ih =>
    intro B h
    have ha := h a (by simp)
    simp only [List.cons_append, List.takeWhile_cons, ha, if_true]
    rw [ih B fun x hx => h x (by simp [hx])]

lemma dropWhile_append_all {p : String → Bool} :
    ∀ (A B : List String), (∀ a ∈ A, p a = true) →
      (A ++ B).dropWhile p = B.dropWhile p := by
  intro A
  induction A with
  | nil => intro B _; rfl
  | cons a A ih =>
    intro B h
    have ha := h a (by simp)
    simp only [List.cons_append, List.dropWhile_cons, ha, if_true]
    exact ih B fun x hx => h x (by simp [hx])

lemma except_map_map (e : Except String (List String))
    (g f : List String → List String) : (e.map g).map f = e.map (f ∘ g) := by
  cases e <;> rfl

lemma except_map_congr (e : Except String (List String))
    {g f : List String → List String} (h : ∀ x, g x = f x) : e.map g = e.map f := by
  cases e with
  | error a => rfl
  | ok x => simp [Except.map, h x]

lemma runSplit_nil (cs : String) (si : ℕ) : runSplit cs si [] = Except.ok [] := rfl

/-- Skipping one stray line. -/
lemma runSplit_skip (cs : String) (si : ℕ) (l : String) (rest : List String)
    (h1 : isSolidOpenL l = false) (h2 : isFacetOpenL l = false) :
    runSplit cs si (l :: rest) = runSplit cs si rest := by
  show splitLoopF (rest.length + 1) cs si (l :: rest) = _
  rw [splitLoopF_step_skip rest.length cs si l rest h1 h2]
  rfl

/-- Skipping a run of stray lines. -/
lemma runSplit_gaps (gs : List String) (hg : ∀ g ∈ gs, GapOk g)
    (cs : String) (si : ℕ) (rest : List String) :
    runSplit cs si (gs ++ rest) = runSplit cs si rest := by
  induction gs with
  | nil => rfl
  | cons g gs ih =>
    have hgok := hg g (by simp)
    rw [List.cons_append, runSplit_skip cs si g (gs ++ rest) hgok.1 hgok.2.1]
    exact ih fun x hx => hg x (by simp [hx])

/-- Consuming one well-formed facet emits exactly its output block. -/
lemma runSplit_facet (cs : String) (si : ℕ) (f : STLFacet) (hf : FacetOk f)
    (rest : List String) :
    runSplit cs si (renderFacet f ++ rest)
      = (runSplit cs (si + 1) rest).map fun out => facetBlock cs si f ++ out := by
  obtain ⟨hfo, hso, hef, hbody, hcef, _, _⟩ := hf
  have hp_body : ∀ b ∈ f.body, (fun x => !(isEndFacetL x)) b = true := by
    intro b hb
    simp [(hbody b hb).1]
  have hshape : renderFacet f ++ rest = f.openL :: (f.body ++ ([f.closeL] ++ rest)) := by
    simp [renderFacet]
  have hdw : (f.openL :: (f.body ++ ([f.closeL] ++ rest))).dropWhile
      (fun x => !(isEndFacetL x)) = f.closeL :: rest := by
    rw [List.dropWhile_cons]
    simp only [hef, Bool.not_false, if_true]
    rw [dropWhile_append_all _ _ hp_body, List.singleton_append, List.dropWhile_cons]
    simp [hcef]
  have htw : (f.openL :: (f.body ++ ([f.closeL] ++ rest))).takeWhile
      (fun x => !(isEndFacetL x)) = f.openL :: f.body := by
    rw [List.takeWhile_cons]
    simp only [hef, Bool.not_false, if_true]
    rw [takeWhile_append_all _ _ hp_body, List.singleton_append, List.takeWhile_cons]
    simp [hcef]
  rw [hshape]
  show splitLoopF ((f.body ++ ([f.closeL] ++ rest)).length + 1) cs si _ = _
  rw [splitLoopF_step_facet _ cs si f.openL _ f.closeL rest hso hfo hdw, htw,
    splitLoopF_eq_runSplit _ cs (si + 1) rest (by simp; omega)]
  refine except_map_congr _ fun out => ?_
  simp [facetBlock, renderFacet]

lemma blocksFrom_cons (cs : String) (si : ℕ) (c : STLChunk) (chunks : List STLChunk) :
    blocksFrom cs si (c :: chunks)
      = facetBlock cs si c.facet ++ blocksFrom cs (si + 1) chunks := by
  simp [blocksFrom, List.enumFrom_cons]

/-- Consuming a run of chunks emits their blocks with increasing indices. -/
lemma runSplit_chunks (cs : String) :
    ∀ (chunks : List STLChunk),
      (∀ c ∈ chunks, FacetOk c.facet ∧ ∀ g ∈ c.gap, GapOk g) →
      ∀ (si : ℕ) (rest : List String),
        runSplit cs si (chunks.flatMap renderChunk ++ rest)
          = (runSplit cs (si + chunks.length) rest).map
              fun out => blocksFrom cs si chunks ++ out := by
  intro chunks
  induction chunks with
  | nil =>
    intro _ si rest
    show runSplit cs si rest = (runSplit cs si rest).map fun out => blocksFrom cs si [] ++ out
    cases h : runSplit cs si rest with
    | error a => rfl
    | ok x => simp [Except.map, blocksFrom, List.enumFrom]
  | cons c chunks ih =>
    intro hc si rest
    have hcf := (hc c (by simp)).1
    have hcg := (hc c (by simp)).2
    have hrec : ∀ x ∈ chunks, FacetOk x.facet ∧ ∀ g ∈ x.gap, GapOk g :=
      fun x hx => hc x (by simp [hx])
    rw [show (c :: chunks).flatMap renderChunk ++ rest
        = renderFacet c.facet ++ (c.gap ++ (chunks.flatMap renderChunk ++ rest)) by
      simp [renderChunk]]
    rw [runSplit_facet cs si c.facet hcf, runSplit_gaps c.gap hcg,
      ih hrec (si + 1) rest, except_map_map,
      show si + 1 + chunks.length = si + (c :: chunks).length by simp; omega]
    refine except_map_congr _ fun out => ?_
    simp [blocksFrom_cons, Function.comp]

/-- Consuming a run of well-formed solids emits all their blocks; the final
solid name and facet index are the folds of the solids over the start state. -/
lemma runSplit_solids :
    ∀ (solids : List STLSolid), (∀ s ∈ solids, SolidOk s) →
      ∀ (cs : String) (si : ℕ) (rest : List String),
        runSplit cs si (solids.flatMap renderSolid ++ rest)
          = (runSplit (solids.foldl (fun _ s => nameOf s) cs)
              (solids.foldl (fun _ s => s.chunks.length) si) rest).map
              fun out => solids.flatMap solidBlocks ++ out := by
  intro solids
  induction solids with
  | nil =>
    intro _ cs si rest
    show runSplit cs si rest = (runSplit cs si rest).map fun out => [] ++ out
    cases h : runSplit cs si rest with
    | error a => rfl
    | ok x => simp [Except.map]
  | cons s solids ih =>
    intro hs cs si rest
    have hsok := hs s (by simp)
    have hrec : ∀ x ∈ solids, SolidOk x := fun x hx => hs x (by simp [hx])
    obtain ⟨ho1, ho2, _, _, hpre, hch, hpost, hc1, hc2, _⟩ := hsok
    obtain ⟨nm, hnm⟩ := Option.isSome_iff_exists.mp ho2
    have hname : String.mk nm = nameOf s := by
      rw [nameOf, hnm]
      rfl
    rw [show (s :: solids).flatMap renderSolid ++ rest
        = s.openL :: (s.pre ++ (s.chunks.flatMap renderChunk
            ++ (s.closeL :: (s.post ++ (solids.flatMap renderSolid ++ rest))))) by
      simp [renderSolid]]
    show splitLoopF (_ + 1) cs si _ = _
    rw [splitLoopF_step_solid _ cs si s.openL _ nm ho1 hnm,
      splitLoopF_eq_runSplit _ _ 0 _ le_rfl,
      hname,
      runSplit_gaps s.pre hpre]
    rw [show s.chunks.flatMap renderChunk
          ++ (s.closeL :: (s.post ++ (solids.flatMap renderSolid ++ rest)))
        = s.chunks.flatMap renderChunk
          ++ (s.closeL :: (s.post ++ (solids.flatMap renderSolid ++ rest))) from rfl,
      runSplit_chunks (nameOf s) s.chunks hch 0 _,
      show (0 : ℕ) + s.chunks.length = s.chunks.length by omega,
      runSplit_skip _ _ s.closeL _ hc1 hc2,
      runSplit_gaps s.post hpost,
      ih hrec (nameOf s) s.chunks.length rest, except_map_map]
    rw [show (s :: solids).foldl (fun _ x => nameOf x) cs
        = solids.foldl (fun _ x => nameOf x) (nameOf s) from rfl]
    rw [show (s :: solids).foldl (fun _ x => x.chunks.length) si
        = solids.foldl (fun _ x => x.chunks.length) s.chunks.length from rfl]
    refine except_map_congr _ fun out => ?_
    simp [Function.comp, solidBlocks]

/-- Full characterization: on a well-formed structured file the splitter
succeeds and returns exactly the per-facet blocks. -/
lemma split_characterization (F : STLFile) (h : FileOk F) :
    split_stl_by_facet (renderFile F) = Except.ok (expectedOut F) := by
  show runSplit "" 0 (F.lead ++ F.solids.flatMap renderSolid) = _
  rw [runSplit_gaps F.lead h.1]
  have hsol := runSplit_solids F.solids h.2 "" 0 []
  rw [List.append_nil] at hsol
  rw [hsol, runSplit_nil]
  simp [Except.map, expectedOut]

/-! ## Classifying the synthesized output lines -/

lemma data_append (a b : String) : (a ++ b).data = a.data ++ b.data := rfl

/-- Stripping a string that begins with a non-whitespace character and whose
tail contains a non-whitespace character keeps the prefix up to that
character intact. -/
lemma stripChars_anchor (a : Char) (A B : List Char) (ha : a.isWhitespace = false)
    (hB : ∃ c ∈ B, c.isWhitespace = false) :
    stripChars ((a :: A) ++ B)
      = (a :: A) ++ ((B.reverse.dropWhile Char.isWhitespace).reverse) := by
  have hne : (B.reverse.dropWhile Char.isWhitespace).isEmpty = false := by
    rw [List.isEmpty_eq_false, Ne, List.dropWhile_eq_nil_iff]
    push_neg
    obtain ⟨c, hc, hcw⟩ := hB
    exact ⟨c, by simp [hc], by simp [hcw]⟩
  unfold stripChars
  rw [List.cons_append, List.dropWhile_cons, if_neg (by simp [ha])]
  rw [List.reverse_cons, List.reverse_append, List.append_assoc,
    List.dropWhile_append, hne]
  simp only [Bool.false_eq_true, if_false]
  rw [List.reverse_append, List.reverse_append]
  simp

lemma synthOpen_data (cs : String) (si : ℕ) :
    (synthOpen cs si).data
      = ('s' :: ("olid ".data ++ cs.data)) ++ ('_' :: (toString si).data) := by
  show ("solid " ++ cs ++ "_" ++ toString si).data = _
  rw [data_append, data_append, data_append]
  simp

lemma synthClose_data (cs : String) (si : ℕ) :
    (synthClose cs si).data
      = ('e' :: ("ndsolid ".data ++ cs.data)) ++ ('_' :: (toString si).data) := by
  show ("endsolid " ++ cs ++ "_" ++ toString si).data = _
  rw [data_append, data_append, data_append]
  simp

lemma synthOpen_strip (cs : String) (si : ℕ) :
    (pyStrip (synthOpen cs si)).data
      = ('s' :: ("olid ".data ++ cs.data))
        ++ ((('_' :: (toString si).data).reverse.dropWhile Char.isWhitespace).reverse) := by
  show (stripChars (synthOpen cs si).data) = _
  rw [synthOpen_data, stripChars_anchor _ _ _ (by decide) ⟨'_', by simp, by decide⟩]

lemma synthClose_strip (cs : String) (si : ℕ) :
    (pyStrip (synthClose cs si)).data
      = ('e' :: ("ndsolid ".data ++ cs.data))
        ++ ((('_' :: (toString si).data).reverse.dropWhile Char.isWhitespace).reverse) := by
  show (stripChars (synthClose cs si).data) = _
  rw [synthClose_data, stripChars_anchor _ _ _ (by decide) ⟨'_', by simp, by decide⟩]

lemma synthOpen_is_solid (cs : String) (si : ℕ) :
    isSolidOpenL (synthOpen cs si) = true := by
  show List.isPrefixOf "solid".data (pyStrip (synthOpen cs si)).data = true
  rw [synthOpen_strip]
  show List.isPrefixOf ['s', 'o', 'l', 'i', 'd'] _ = true
  simp [List.isPrefixOf, List.cons_append]

lemma synthOpen_not_facet (cs : String) (si : ℕ) :
    isFacetOpenL (synthOpen cs si) = false := by
  show List.isPrefixOf "facet normal".data (pyStrip (synthOpen cs si)).data = false
  rw [synthOpen_strip]
  show List.isPrefixOf ('f' :: "acet normal".data) _ = false
  simp [List.isPrefixOf, List.cons_append]

lemma synthOpen_not_vertex (cs : String) (si : ℕ) :
    isVertexL (synthOpen cs si) = false := by
  show List.isPrefixOf "vertex".data (pyStrip (synthOpen cs si)).data = false
  rw [synthOpen_strip]
  show List.isPrefixOf ('v' :: "ertex".data) _ = false
  simp [List.isPrefixOf, List.cons_append]

lemma synthClose_not_solid (cs : String) (si : ℕ) :
    isSolidOpenL (synthClose cs si) = false := by
  show List.isPrefixOf "solid".data (pyStrip (synthClose cs si)).data = false
  rw [synthClose_strip]
  show List.isPrefixOf ('s' :: "olid".data) _ = false
  simp [List.isPrefixOf, List.cons_append]

lemma synthClose_not_facet (cs : String) (si : ℕ) :
    isFacetOpenL (synthClose cs si) = false := by
  show List.isPrefixOf "facet normal".data (pyStrip (synthClose cs si)).data = false
  rw [synthClose_strip]
  show List.isPrefixOf ('f' :: "acet normal".data) _ = false
  simp [List.isPrefixOf, List.cons_append]

lemma synthClose_not_vertex (cs : String) (si : ℕ) :
    isVertexL (synthClose cs si) = false := by
  show List.isPrefixOf "vertex".data (pyStrip (synthClose cs si)).data = false
  rw [synthClose_strip]
  show List.isPrefixOf ('v' :: "ertex".data) _ = false
  simp [List.isPrefixOf, List.cons_append]

/-! ## Counting blocks and filtering vertex lines -/

lemma countP_none (p : String → Bool) (l : List String)
    (h : ∀ x ∈ l, p x = false) : l.countP p = 0 :=
  List.countP_eq_zero.mpr fun x hx => by simp [h x hx]

lemma filter_none (p : String → Bool) (l : List String)
    (h : ∀ x ∈ l, p x = false) : l.filter p = [] := by
  induction l with
  | nil => rfl
  | cons a l ih =>
    rw [List.filter_cons, if_neg (by simp [h a (by simp)])]
    exact ih fun x hx => h x (by simp [hx])

lemma countP_facetBlock_solid (cs : String) (si : ℕ) (f : STLFacet) (hf : FacetOk f) :
    (facetBlock cs si f).countP isSolidOpenL = 1 := by
  obtain ⟨_, hso, _, hbody, _, hcso, _⟩ := hf
  have hb : f.body.countP isSolidOpenL = 0 :=
    countP_none _ _ fun b hb => (hbody b hb).2.1
  simp [facetBlock, renderFacet, List.countP_cons, List.countP_append, hb,
    synthOpen_is_solid, synthClose_not_solid, hso, hcso]

lemma countP_blocksFrom_solid (cs : String) :
    ∀ (chunks : List STLChunk), (∀ c ∈ chunks, FacetOk c.facet) →
      ∀ si : ℕ, (blocksFrom cs si chunks).countP isSolidOpenL = chunks.length := by
  intro chunks
  induction chunks with
  | nil => intro _ si; rfl
  | cons c chunks ih =>
    intro hc si
    rw [blocksFrom_cons, List.countP_append,
      countP_facetBlock_solid cs si c.facet (hc c (by simp)),
      ih (fun x hx => hc x (by simp [hx])) (si + 1), List.length_cons]
    omega

lemma countP_chunks_facet :
    ∀ (chunks : List STLChunk),
      (∀ c ∈ chunks, FacetOk c.facet ∧ ∀ g ∈ c.gap, GapOk g) →
      (chunks.flatMap renderChunk).countP isFacetOpenL = chunks.length := by
  intro chunks
  induction chunks with
  | nil => intro _; rfl
  | cons c chunks ih =>
    intro hc
    obtain ⟨⟨hfo, _, _, hbody, _, _, hcf⟩, hg⟩ := hc c (by simp)
    have hb : c.facet.body.countP isFacetOpenL = 0 :=
      countP_none _ _ fun b hb => (hbody b hb).2.2
    have hgp : c.gap.countP isFacetOpenL = 0 :=
      countP_none _ _ fun g hgm => (hg g hgm).2.1
    rw [List.flatMap_cons, List.countP_append, ih fun x hx => hc x (by simp [hx])]
    simp [renderChunk, renderFacet, List.countP_cons, List.countP_append, hb, hgp,
      hfo, hcf, Nat.add_comm]

lemma countP_solidBlocks (s : STLSolid) (hs : SolidOk s) :
    (solidBlocks s).countP isSolidOpenL = s.chunks.length :=
  countP_blocksFrom_solid (nameOf s) s.chunks
    (fun c hc => ((hs.2.2.2.2.2.1) c hc).1) 0

lemma countP_renderSolid_facet (s : STLSolid) (hs : SolidOk s) :
    (renderSolid s).countP isFacetOpenL = s.chunks.length := by
  obtain ⟨_, _, hsf, _, hpre, hch, hpost, _, hcf, _⟩ := hs
  have h1 : s.pre.countP isFacetOpenL = 0 :=
    countP_none _ _ fun g hg => (hpre g hg).2.1
  have h2 : s.post.countP isFacetOpenL = 0 :=
    countP_none _ _ fun g hg => (hpost g hg).2.1
  rw [renderSolid]
  simp [List.countP_cons, List.countP_append, h1, h2, hsf, hcf,
    countP_chunks_facet s.chunks hch]

lemma filter_facetBlock_vertex (cs : String) (si : ℕ) (f : STLFacet) :
    (facetBlock cs si f).filter isVertexL = (renderFacet f).filter isVertexL := by
  rw [facetBlock, List.filter_cons, if_neg (by simp [synthOpen_not_vertex]),
    List.filter_append]
  rw [show [synthClose cs si].filter isVertexL = [] from by
    simp [List.filter_cons, synthClose_not_vertex]]
  simp

lemma filter_blocksFrom_vertex (cs : String) :
    ∀ (chunks : List STLChunk) (si : ℕ),
      (blocksFrom cs si chunks).filter isVertexL
        = chunks.flatMap fun c => (renderFacet c.facet).filter isVertexL := by
  intro chunks
  induction chunks with
  | nil => intro si; rfl
  | cons c chunks ih =>
    intro si
    rw [blocksFrom_cons, List.filter_append, filter_facetBlock_vertex,
      ih (si + 1), List.flatMap_cons]

lemma filter_chunks_vertex :
    ∀ (chunks : List STLChunk), (∀ c ∈ chunks, ∀ g ∈ c.gap, GapOk g) →
      (chunks.flatMap renderChunk).filter isVertexL
        = chunks.flatMap fun c => (renderFacet c.facet).filter isVertexL := by
  intro chunks
  induction chunks with
  | nil => intro _; rfl
  | cons c chunks ih =>
    intro hc
    have hg : c.gap.filter isVertexL = [] :=
      filter_none _ _ fun g hgm => (hc c (by simp) g hgm).2.2
    rw [List.flatMap_cons, List.flatMap_cons, List.filter_append, renderChunk,
      List.filter_append, hg, List.append_nil, ih fun x hx => hc x (by simp [hx])]

lemma filter_renderSolid_vertex (s : STLSolid) (hs : SolidOk s) :
    (renderSolid s).filter isVertexL
      = s.chunks.flatMap fun c => (renderFacet c.facet).filter isVertexL := by
  obtain ⟨_, _, _, hsv, hpre, hch, hpost, _, _, hcv⟩ := hs
  have h1 : s.pre.filter isVertexL = [] :=
    filter_none _ _ fun g hg => (hpre g hg).2.2
  have h2 : s.post.filter isVertexL = [] :=
    filter_none _ _ fun g hg => (hpost g hg).2.2
  rw [renderSolid, List.filter_cons, if_neg (by simp [hsv])]
  rw [List.filter_append, List.filter_append, List.filter_append, h1,
    List.filter_cons, if_neg (by simp [hcv])]
  simp [h2, filter_chunks_vertex s.chunks fun c hc => (hch c hc).2]

lemma filter_solidBlocks_vertex (s : STLSolid) :
    (solidBlocks s).filter isVertexL
      = s.chunks.flatMap fun c => (renderFacet c.facet).filter isVertexL :=
  filter_blocksFrom_vertex (nameOf s) s.chunks 0

/-! # C6 / C7 / C10 -/

/-- C10: the splitter's output on a well-formed file consists solely of the
synthesized per-facet `solid`/`endsolid` lines and the lines captured inside
facet blocks: every line outside facet blocks — original solid-open lines,
original `endsolid` lines, blank lines, any stray text — is discarded. -/
theorem split_output_only_synth_and_captured (F : STLFile) (h : FileOk F) :
    split_stl_by_facet (renderFile F) = Except.ok (expectedOut F) :=
  split_characterization F h

lemma countP_solids_blocks :
    ∀ (solids : List STLSolid), (∀ s ∈ solids, SolidOk s) →
      (solids.flatMap solidBlocks).countP isSolidOpenL
        = (solids.flatMap renderSolid).countP isFacetOpenL := by
  intro solids
  induction solids with
  | nil => intro _; rfl
  | cons s solids ih =>
    intro hs
    rw [List.flatMap_cons, List.flatMap_cons, List.countP_append, List.countP_append,
      countP_solidBlocks s (hs s (by simp)),
      countP_renderSolid_facet s (hs s (by simp)),
      ih fun x hx => hs x (by simp [hx])]

lemma filter_solids_blocks :
    ∀ (solids : List STLSolid), (∀ s ∈ solids, SolidOk s) →
      (solids.flatMap solidBlocks).filter isVertexL
        = (solids.flatMap renderSolid).filter isVertexL := by
  intro solids
  induction solids with
  | nil => intro _; rfl
  | cons s solids ih =>
    intro hs
    rw [List.flatMap_cons, List.flatMap_cons, List.filter_append, List.filter_append,
      filter_solidBlocks_vertex s, filter_renderSolid_vertex s (hs s (by simp)),
      ih fun x hx => hs x (by simp [hx])]

/-- C6: on a well-formed file the splitter succeeds, emits exactly one
output solid block per facet-open line of the input (counted as solid-open
lines of the output), and the vertex payload lines of the output equal, in
order and verbatim, the vertex payload lines of the input. -/
theorem split_preserves_facets_and_vertices (F : STLFile) (h : FileOk F) :
    ∃ out, split_stl_by_facet (renderFile F) = Except.ok out ∧
      out.countP isSolidOpenL = (renderFile F).countP isFacetOpenL ∧
      out.filter isVertexL = (renderFile F).filter isVertexL := by
  refine ⟨expectedOut F, split_characterization F h, ?_, ?_⟩
  · have hlead : F.lead.countP isFacetOpenL = 0 :=
      countP_none _ _ fun g hg => (h.1 g hg).2.1
    rw [renderFile, List.countP_append, hlead, Nat.zero_add, expectedOut]
    exact countP_solids_blocks F.solids h.2
  · have hlead : F.lead.filter isVertexL = [] :=
      filter_none _ _ fun g hg => (h.1 g hg).2.2
    rw [renderFile, List.filter_append, hlead, List.nil_append, expectedOut]
    exact filter_solids_blocks F.solids h.2

/-- C7: a facet-open line with no facet-close before end of file makes the
splitter abort with Python's `IndexError` (modelled as `Except.error`), so
no output is produced — the output file, which Python only opens after the
loop finishes, is never written. -/
theorem split_unterminated_facet_errors (F : STLFile) (hF : FileOk F)
    (fo : String) (tail : List String)
    (h1 : isSolidOpenL fo = false) (h2 : isFacetOpenL fo = true)
    (h3 : isEndFacetL fo = false) (h4 : ∀ l ∈ tail, isEndFacetL l = false) :
    split_stl_by_facet (renderFile F ++ (fo :: tail)) = Except.error "IndexError" := by
  show runSplit "" 0 ((F.lead ++ F.solids.flatMap renderSolid) ++ (fo :: tail)) = _
  rw [List.append_assoc, runSplit_gaps F.lead hF.1,
    runSplit_solids F.solids hF.2 "" 0 (fo :: tail)]
  have hun : runSplit (F.solids.foldl (fun _ s => nameOf s) "")
      (F.solids.foldl (fun _ s => s.chunks.length) 0) (fo :: tail)
      = Except.error "IndexError" := by
    show splitLoopF (tail.length + 1) _ _ _ = _
    refine splitLoopF_step_unterminated _ _ _ _ _ h1 h2 ?_
    rw [List.dropWhile_eq_nil_iff]
    intro x hx
    rcases List.mem_cons.mp hx with hx | hx
    · simp [hx, h3]
    · simp [h4 x hx]
  rw [hun]
  rfl

/-- C6 witness: the preservation theorem applied to `fileExample`. -/
theorem split_preserves_witness :
    ∃ out, split_stl_by_facet (renderFile fileExample) = Except.ok out ∧
      out.countP isSolidOpenL = (renderFile fileExample).countP isFacetOpenL ∧
      out.filter isVertexL = (renderFile fileExample).filter isVertexL :=
  split_preserves_facets_and_vertices fileExample (by decide)

/-- C7 witness: appending an unterminated facet after `fileExample` makes
the splitter abort with the `IndexError`. -/
theorem split_unterminated_witness :
    split_stl_by_facet (renderFile fileExample
        ++ ("facet normal 1 0 0" :: ["outer loop", " vertex 9 9 9"]))
      = Except.error "IndexError" :=
  split_unterminated_facet_errors fileExample (by decide)
    "facet normal 1 0 0" ["outer loop", " vertex 9 9 9"]
    (by decide) (by decide) (by decide) (by decide)

/-- C10 witness: the output-form theorem applied to `fileExample`. -/
theorem split_output_form_witness :
    split_stl_by_facet (renderFile fileExample) = Except.ok (expectedOut fileExample) :=
  split_output_only_synth_and_captured fileExample (by decide)

lemma countsGet_bump (c : SolidCounts) (k' k : String) (hk' : k' ∈ solidTypes) :
    countsGet (bump c k') k = countsGet c k + (if k = k' then 1 else 0) := by
  have hmem : k' = "building" ∨ k' = "highway" ∨ k' = "grass" ∨ k' = "ground"
      ∨ k' = "waterway" ∨ k' = "tree" := by simpa [solidTypes] using hk'
  rcases hmem with rfl | rfl | rfl | rfl | rfl | rfl
  · by_cases h : k = "building" <;> simp [bump, countsGet, h]
  · by_cases h : k = "highway" <;> simp [bump, countsGet, h]
  · by_cases h : k = "grass" <;> simp [bump, countsGet, h]
  · by_cases h : k = "ground" <;> simp [bump, countsGet, h]
  · by_cases h : k = "waterway" <;> simp [bump, countsGet, h]
  · by_cases h : k = "tree" <;> simp [bump, countsGet, h]

lemma countsSum_bump (c : SolidCounts) (k' : String) (hk' : k' ∈ solidTypes) :
    countsSum (bump c k') = countsSum c + 1 := by
  have hmem : k' = "building" ∨ k' = "highway" ∨ k' = "grass" ∨ k' = "ground"
      ∨ k' = "waterway" ∨ k' = "tree" := by simpa [solidTypes] using hk'
  rcases hmem with rfl | rfl | rfl | rfl | rfl | rfl <;> simp [bump, countsSum] <;> omega

lemma lineSolidStep_noname (c : SolidCounts) (t : String)
    (hs : startsW t "solid" = true) (hnm : (pySplit t)[1]? = none) :
    lineSolidStep c t = Except.error "IndexError" := by
  rw [lineSolidStep, if_pos hs, hnm]

lemma lineSolidStep_classified (c : SolidCounts) (t nm kf : String)
    (hs : startsW t "solid" = true) (hnm : (pySplit t)[1]? = some nm)
    (hcl : classify nm = some kf) :
    lineSolidStep c t = Except.ok (bump c kf) := by
  rw [lineSolidStep, if_pos hs, hnm]
  show Except.ok (match classify nm with | some k => bump c k | none => c)
      = Except.ok (bump c kf)
  rw [hcl]

lemma lineSolidStep_unmatched (c : SolidCounts) (t nm : String)
    (hs : startsW t "solid" = true) (hnm : (pySplit t)[1]? = some nm)
    (hcl : classify nm = none) :
    lineSolidStep c t = Except.ok c := by
  rw [lineSolidStep, if_pos hs, hnm]
  show Except.ok (match classify nm with | some k => bump c k | none => c)
      = Except.ok c
  rw [hcl]

lemma lineSolidStep_nonsolid (c : SolidCounts) (t : String)
    (hs : startsW t "solid" = false) :
    lineSolidStep c t = Except.ok c := by
  rw [lineSolidStep, if_neg (by simp [hs])]

lemma parseStlLoop_char :
    ∀ (ls : List String) (c0 c : SolidCounts), parseStlLoop c0 ls = Except.ok c →
      ∀ k : String,
        countsGet c k = countsGet c0 k
          + (solidNamesOf ls).countP (fun nm => classify nm == some k) := by
  intro ls
  induction ls with
  | nil =>
    intro c0 c h k
    obtain rfl : c0 = c := by injection h
    simp [solidNamesOf]
  | cons l rest ih =>
    intro c0 c h k
    rw [parseStlLoop] at h
    cases hss : lineSolidStep c0 (pyStrip l) with
    | error e => rw [hss] at h; cases h
    | ok c2 =>
      rw [hss] at h
      cases hvs : lineVertexStep (pyStrip l) with
      | error e => rw [hvs] at h; cases h
      | ok u =>
        rw [hvs] at h
        have hrec := ih c2 c h k
        by_cases hs : startsW (pyStrip l) "solid"
        · cases hnm : (pySplit (pyStrip l))[1]? with
          | none =>
            have hv := (lineSolidStep_noname c0 (pyStrip l) hs hnm).symm.trans hss
            cases hv
          | some nm =>
            have hnames : solidNamesOf (l :: rest) = nm :: solidNamesOf rest := by
              rw [solidNamesOf, List.filterMap_cons, if_pos hs, hnm]
              rfl
            rw [hnames, List.countP_cons, hrec]
            cases hcl : classify nm with
            | none =>
              obtain rfl : c0 = c2 := by
                have hv := (lineSolidStep_unmatched c0 (pyStrip l) nm hs hnm hcl).symm.trans hss
                injection hv
              simp [hcl]
            | some kf =>
              obtain rfl : bump c0 kf = c2 := by
                have hv := (lineSolidStep_classified c0 (pyStrip l) nm kf hs hnm hcl).symm.trans hss
                injection hv
              have hkmem : kf ∈ solidTypes := List.mem_of_find?_eq_some hcl
              rw [countsGet_bump c0 kf k hkmem]
              by_cases hkk : kf = k
              · subst hkk
                simp [hcl]
                omega
              · simp [hcl, hkk, Ne.symm hkk]
        · have hs' : startsW (pyStrip l) "solid" = false := by simpa using hs
          obtain rfl : c0 = c2 := by
            have hv := (lineSolidStep_nonsolid c0 (pyStrip l) hs').symm.trans hss
            injection hv
          have hnames : solidNamesOf (l :: rest) = solidNamesOf rest := by
            rw [solidNamesOf, List.filterMap_cons, if_neg (by simp [hs'])]
            rfl
          rw [hnames, hrec]

lemma parseStlLoop_sum :
    ∀ (ls : List String) (c0 c : SolidCounts), parseStlLoop c0 ls = Except.ok c →
      countsSum c = countsSum c0
        + (solidNamesOf ls).countP (fun nm => (classify nm).isSome) := by
  intro ls
  induction ls with
  | nil =>
    intro c0 c h
    obtain rfl : c0 = c := by injection h
    simp [solidNamesOf]
  | cons l rest ih =>
    intro c0 c h
    rw [parseStlLoop] at h
    cases hss : lineSolidStep c0 (pyStrip l) with
    | error e => rw [hss] at h; cases h
    | ok c2 =>
      rw [hss] at h
      cases hvs : lineVertexStep (pyStrip l) with
      | error e => rw [hvs] at h; cases h
      | ok u =>
        rw [hvs] at h
        have hrec := ih c2 c h
        by_cases hs : startsW (pyStrip l) "solid"
        · cases hnm : (pySplit (pyStrip l))[1]? with
          | none =>
            have hv := (lineSolidStep_noname c0 (pyStrip l) hs hnm).symm.trans hss
            cases hv
          | some nm =>
            have hnames : solidNamesOf (l :: rest) = nm :: solidNamesOf rest := by
              rw [solidNamesOf, List.filterMap_cons, if_pos hs, hnm]
              rfl
            rw [hnames, List.countP_cons, hrec]
            cases hcl : classify nm with
            | none =>
              obtain rfl : c0 = c2 := by
                have hv := (lineSolidStep_unmatched c0 (pyStrip l) nm hs hnm hcl).symm.trans hss
                injection hv
              simp [hcl]
            | some kf =>
              obtain rfl : bump c0 kf = c2 := by
                have hv := (lineSolidStep_classified c0 (pyStrip l) nm kf hs hnm hcl).symm.trans hss
                injection hv
              have hkmem : kf ∈ solidTypes := List.mem_of_find?_eq_some hcl
              rw [countsSum_bump c0 kf hkmem]
              simp [hcl]
              omega
        · have hs' : startsW (pyStrip l) "solid" = false := by simpa using hs
          obtain rfl : c0 = c2 := by
            have hv := (lineSolidStep_nonsolid c0 (pyStrip l) hs').symm.trans hss
            injection hv
          have hnames : solidNamesOf (l :: rest) = solidNamesOf rest := by
            rw [solidNamesOf, List.filterMap_cons, if_neg (by simp [hs'])]
            rfl
          rw [hnames, hrec]

/-- C9: whenever `parse_stl` completes, each taxonomy counter equals the
number of solid names whose first matching key (case-insensitive prefix, in
declared taxonomy order — that is `classify`) is that counter's key; the
counters total exactly one increment per classified solid (unmatched names
are skipped silently, not errors); and the spec's example file with solids
`building_01`, `Highway_3`, `tree7` yields counts
`{building: 1, highway: 1, tree: 1}` and all others 0. -/
theorem parse_stl_classification (ls : List String) (c : SolidCounts) (k : String)
    (h : parse_stl_counts ls = Except.ok c) :
    countsGet c k = (solidNamesOf ls).countP (fun nm => classify nm == some k) ∧
    countsSum c = (solidNamesOf ls).countP (fun nm => (classify nm).isSome) ∧
    parse_stl_counts ["solid building_01", "solid Highway_3", "solid tree7"]
      = Except.ok ⟨1, 1, 0, 0, 0, 1⟩ := by
  refine ⟨?_, ?_, by decide⟩
  · have := parseStlLoop_char ls zeroCounts c h k
    simpa [zeroCounts, countsGet] using this
  · have := parseStlLoop_sum ls zeroCounts c h
    simpa [zeroCounts, countsSum] using this

/-- C9 witness: the classification theorem at the spec's example file and
key `"building"`. -/
theorem parse_stl_classification_witness :
    countsGet ⟨1, 1, 0, 0, 0, 1⟩ "building"
      = (solidNamesOf ["solid building_01", "solid Highway_3", "solid tree7"]).countP
          (fun nm => classify nm == some "building") :=
  (parse_stl_classification ["solid building_01", "solid Highway_3", "solid tree7"]
    ⟨1, 1, 0, 0, 0, 1⟩ "building" (by decide)).1
